import Mathlib

/-!
# latis: QUIC transport adapter and stream multiplexer

A shallow embedding of `pkg/transport/quic` (`mux.go`, `conn.go`, `dialer.go`,
`listener.go`, `stream_conn.go`, `stream_type.go`).

The package is a thin layer over the quic-go library.  The library is modelled
as an explicit world state: a heap of `quic.Conn` objects, a heap of
`quic.Stream` objects, scripts that fix what each library call answers, and a
log of every library call in the order it was made.  The package's own
functions are translated statement by statement as functions on that world.
-/

namespace Latis

/-! ## Go values -/

/-- One octet. -/
abbrev Byte := Fin 256

/-- A network address (`net.Addr`). -/
abbrev Addr := String

/-- A point in time (`time.Time`). -/
abbrev Time := Nat

/-- Non-nil Go error values.  `lib` is an error value made outside this package
(by quic-go, `io` or `context`); `errorf pfx cause` is
`fmt.Errorf(pfx + ": %w", cause)` for a non-nil `cause`; `errorfNil pfx` is the
same call with a nil operand, which still yields a non-nil error. -/
inductive GoError where
  | lib (msg : String)
  | errorf (pfx : String) (cause : GoError)
  | errorfNil (pfx : String)
  deriving DecidableEq, Repr

/-- The Go `error` interface: `none` is `nil`. -/
abbrev error := Option GoError

/-- The text of `err.Error()`. -/
def GoError.Error : GoError → String
  | .lib msg => msg
  | .errorf pfx cause => pfx ++ ": " ++ cause.Error
  | .errorfNil pfx => pfx ++ ": %!w(<nil>)"

/-- The result of `errors.Unwrap(err)`. -/
def GoError.Unwrap : GoError → error
  | .lib _ => none
  | .errorf _ cause => some cause
  | .errorfNil _ => none

/-- The call `fmt.Errorf(pfx + ": %w", err)`; the result is never nil. -/
def fmtErrorf (pfx : String) (err : error) : GoError :=
  match err with
  | some cause => .errorf pfx cause
  | none => .errorfNil pfx

/-- The sentinel `io.EOF`. -/
def ioEOF : GoError := .lib "EOF"

/-- The sentinel `io.ErrUnexpectedEOF`. -/
def ioErrUnexpectedEOF : GoError := .lib "unexpected EOF"

/-- A `context.Context`; `Background` is `context.Background()`. -/
inductive Context where
  | Background
  | other (id : Nat)
  deriving DecidableEq, Repr

/-- A `*tls.Config`, kept abstract. -/
structure TLSConfig where
  id : Nat
  deriving DecidableEq, Repr

/-- A `*quic.Config`, kept abstract. -/
structure QuicConfig where
  id : Nat
  deriving DecidableEq, Repr

/-! ## stream_type.go -/

/-- The Go type `StreamType`, a named `byte`. -/
structure StreamType where
  val : Byte
  deriving DecidableEq, Repr

/-- The conversion `byte(streamType)`. -/
def StreamType.toByte (t : StreamType) : Byte := t.val

/-- The conversion `StreamType(b)`. -/
def StreamType.ofByte (b : Byte) : StreamType := ⟨b⟩

/-- The constant `StreamTypeControl`, 0x01. -/
def StreamTypeControl : StreamType := ⟨0x01⟩

/-- The constant `StreamTypeA2A`, 0x02. -/
def StreamTypeA2A : StreamType := ⟨0x02⟩

/-- The method `StreamType.String`. -/
def StreamType.String (t : StreamType) : String :=
  if t = StreamTypeControl then "control"
  else if t = StreamTypeA2A then "a2a"
  else "unknown"

/-! ## The quic-go library as a world state -/

/-- A call into the library, as recorded in the world's log.  Connections,
streams and listeners are named by their heap index. -/
inductive Call where
  | DialAddr (ctx : Context) (addr : String) (tlsConfig : TLSConfig) (quicConfig : QuicConfig)
  | ListenerAccept (ql : Nat) (ctx : Context)
  | ListenerClose (ql : Nat)
  | OpenStreamSync (qconn : Nat) (ctx : Context)
  | AcceptStream (qconn : Nat) (ctx : Context)
  | CloseWithError (qconn : Nat) (code : Nat) (reason : String)
  | Write (stream : Nat) (p : List Byte)
  | Read (stream : Nat) (len : Nat)
  | Close (stream : Nat)
  | SetReadDeadline (stream : Nat) (t : Time)
  | SetWriteDeadline (stream : Nat) (t : Time)
  deriving DecidableEq, Repr

/-- What the library and the peer will do to one stream, fixed when the stream
comes into being:
* `recv`: the bytes the peer sends on it, in order;
* `recvEnd`: what `Read` reports once those bytes are used up (`io.EOF` after
  the peer closed its side);
* `writeFault`: `some (room, e)` makes `Write` fail with `e` as soon as more
  than `room` further bytes are offered;
* `closeResult`: what `Close` answers;
* what the two deadline setters answer. -/
structure StreamScript where
  recv : List Byte
  recvEnd : GoError
  writeFault : Option (Nat × GoError)
  closeResult : error
  setReadDeadlineResult : error
  setWriteDeadlineResult : error
  deriving DecidableEq, Repr

/-- The state of one `quic.Stream`: its script, and
* `sent`: the bytes `Write` has accepted, in write order;
* `recv`: the bytes that arrived from the peer and were not read yet;
* `writeFault`: as in the script, with the room that is left;
* `closeCalls`: the number of `Close` calls so far;
* the two deadlines, `none` while unset. -/
structure QuicStream where
  script : StreamScript
  sent : List Byte
  recv : List Byte
  writeFault : Option (Nat × GoError)
  closeCalls : Nat
  readDeadline : Option Time
  writeDeadline : Option Time
  deriving DecidableEq, Repr

/-- A stream as `OpenStreamSync` or `AcceptStream` hands it out: nothing
written, nothing read, never closed, no deadline. -/
def QuicStream.new (script : StreamScript) : QuicStream :=
  { script := script
    sent := []
    recv := script.recv
    writeFault := script.writeFault
    closeCalls := 0
    readDeadline := none
    writeDeadline := none }

/-- What the library will do on one connection: `openScript k` and
`acceptScript k` fix the outcome of the `k`-th `OpenStreamSync` and
`AcceptStream` call (an error, or the script of the new stream), and
`closeScript k` is the answer of the `k`-th `CloseWithError` call. -/
structure ConnScript where
  localAddr : Addr
  remoteAddr : Addr
  openScript : Nat → Except GoError StreamScript
  acceptScript : Nat → Except GoError StreamScript
  closeScript : Nat → error

/-- The state of one `quic.Conn`: its script, the number of `OpenStreamSync`
and `AcceptStream` calls so far, and the arguments of the `CloseWithError`
calls so far. -/
structure QuicConn where
  script : ConnScript
  opened : Nat
  accepted : Nat
  closeCalls : List (Nat × String)

/-- A connection as `quic.DialAddr` or a listener hands it out. -/
def QuicConn.new (script : ConnScript) : QuicConn :=
  { script := script, opened := 0, accepted := 0, closeCalls := [] }

/-- The state of one `quic.Listener`: `acceptScript k` fixes the outcome of its
`k`-th `Accept` call. -/
structure QuicListener where
  acceptScript : Nat → Except GoError ConnScript
  accepted : Nat
  closeResult : error
  closeCalls : Nat

/-- The world: the three heaps with their allocation counters, the script of
`quic.DialAddr` outcomes, and the log of library calls, oldest first. -/
structure World where
  conns : Nat → QuicConn
  nextConn : Nat
  streams : Nat → QuicStream
  nextStream : Nat
  listeners : Nat → QuicListener
  dialScript : Nat → Except GoError ConnScript
  dialed : Nat
  log : List Call

/-- Append a call to the log. -/
def World.record (w : World) (c : Call) : World :=
  { w with log := w.log ++ [c] }

/-- Overwrite one connection of the heap. -/
def World.setConn (w : World) (qconn : Nat) (qc : QuicConn) : World :=
  { w with conns := Function.update w.conns qconn qc }

/-- Overwrite one stream of the heap. -/
def World.setStream (w : World) (stream : Nat) (s : QuicStream) : World :=
  { w with streams := Function.update w.streams stream s }

/-- Overwrite one listener of the heap. -/
def World.setListener (w : World) (ql : Nat) (l : QuicListener) : World :=
  { w with listeners := Function.update w.listeners ql l }

/-- Put a new stream on the heap and return its index. -/
def World.allocStream (w : World) (s : QuicStream) : Nat × World :=
  (w.nextStream, { w.setStream w.nextStream s with nextStream := w.nextStream + 1 })

/-- Put a new connection on the heap and return its index. -/
def World.allocConn (w : World) (qc : QuicConn) : Nat × World :=
  (w.nextConn, { w.setConn w.nextConn qc with nextConn := w.nextConn + 1 })

/-- The library call `quic.DialAddr(ctx, addr, tlsConfig, quicConfig)`. -/
def quicDialAddr (ctx : Context) (addr : String) (tlsConfig : TLSConfig)
    (quicConfig : QuicConfig) (w : World) : Except GoError Nat × World :=
  let w1 := { w.record (.DialAddr ctx addr tlsConfig quicConfig) with dialed := w.dialed + 1 }
  match w.dialScript w.dialed with
  | .error e => (.error e, w1)
  | .ok script =>
    let (qconn, w2) := w1.allocConn (QuicConn.new script)
    (.ok qconn, w2)

/-- The library call `ql.Accept(ctx)` on a `*quic.Listener`. -/
def quicListenerAccept (ql : Nat) (ctx : Context) (w : World) : Except GoError Nat × World :=
  let l := w.listeners ql
  let w1 := (w.record (.ListenerAccept ql ctx)).setListener ql { l with accepted := l.accepted + 1 }
  match l.acceptScript l.accepted with
  | .error e => (.error e, w1)
  | .ok script =>
    let (qconn, w2) := w1.allocConn (QuicConn.new script)
    (.ok qconn, w2)

/-- The library call `ql.Close()` on a `*quic.Listener`. -/
def quicListenerClose (ql : Nat) (w : World) : error × World :=
  let l := w.listeners ql
  (l.closeResult, (w.record (.ListenerClose ql)).setListener ql { l with closeCalls := l.closeCalls + 1 })

/-- The library call `qconn.OpenStreamSync(ctx)`. -/
def quicOpenStreamSync (qconn : Nat) (ctx : Context) (w : World) : Except GoError Nat × World :=
  let qc := w.conns qconn
  let w1 := (w.record (.OpenStreamSync qconn ctx)).setConn qconn { qc with opened := qc.opened + 1 }
  match qc.script.openScript qc.opened with
  | .error e => (.error e, w1)
  | .ok script =>
    let (stream, w2) := w1.allocStream (QuicStream.new script)
    (.ok stream, w2)

/-- The library call `qconn.AcceptStream(ctx)`. -/
def quicAcceptStream (qconn : Nat) (ctx : Context) (w : World) : Except GoError Nat × World :=
  let qc := w.conns qconn
  let w1 := (w.record (.AcceptStream qconn ctx)).setConn qconn { qc with accepted := qc.accepted + 1 }
  match qc.script.acceptScript qc.accepted with
  | .error e => (.error e, w1)
  | .ok script =>
    let (stream, w2) := w1.allocStream (QuicStream.new script)
    (.ok stream, w2)

/-- The library call `qconn.CloseWithError(code, reason)`. -/
def quicCloseWithError (qconn : Nat) (code : Nat) (reason : String) (w : World) : error × World :=
  let qc := w.conns qconn
  (qc.script.closeScript qc.closeCalls.length,
    (w.record (.CloseWithError qconn code reason)).setConn qconn
      { qc with closeCalls := qc.closeCalls ++ [(code, reason)] })

/-- The library call `stream.Write(p)`: the byte count and the error. -/
def quicStreamWrite (stream : Nat) (p : List Byte) (w : World) : (Nat × error) × World :=
  let s := w.streams stream
  let w1 := w.record (.Write stream p)
  match s.writeFault with
  | none => ((p.length, none), w1.setStream stream { s with sent := s.sent ++ p })
  | some (room, e) =>
    if p.length ≤ room then
      ((p.length, none),
        w1.setStream stream { s with sent := s.sent ++ p, writeFault := some (room - p.length, e) })
    else
      ((room, some e),
        w1.setStream stream { s with sent := s.sent ++ p.take room, writeFault := some (0, e) })

/-- The library call `stream.Read(b)` with `len(b) = len`: the bytes stored
into `b` and the error. -/
def quicStreamRead (stream : Nat) (len : Nat) (w : World) : (List Byte × error) × World :=
  let s := w.streams stream
  let w1 := w.record (.Read stream len)
  if len = 0 then (([], none), w1)
  else
    match s.recv with
    | [] => (([], some s.script.recvEnd), w1)
    | b :: rest =>
      (((b :: rest).take len, none), w1.setStream stream { s with recv := (b :: rest).drop len })

/-- The library call `stream.Close()`. -/
def quicStreamClose (stream : Nat) (w : World) : error × World :=
  let s := w.streams stream
  (s.script.closeResult, (w.record (.Close stream)).setStream stream { s with closeCalls := s.closeCalls + 1 })

/-- The library call `stream.SetReadDeadline(t)`. -/
def quicSetReadDeadline (stream : Nat) (t : Time) (w : World) : error × World :=
  let s := w.streams stream
  let w1 := w.record (.SetReadDeadline stream t)
  match s.script.setReadDeadlineResult with
  | some e => (some e, w1)
  | none => (none, w1.setStream stream { s with readDeadline := some t })

/-- The library call `stream.SetWriteDeadline(t)`. -/
def quicSetWriteDeadline (stream : Nat) (t : Time) (w : World) : error × World :=
  let s := w.streams stream
  let w1 := w.record (.SetWriteDeadline stream t)
  match s.script.setWriteDeadlineResult with
  | some e => (some e, w1)
  | none => (none, w1.setStream stream { s with writeDeadline := some t })

/-- The loop of `io.ReadAtLeast(stream, buf, min)` with `len(buf) = bufLen`:
while fewer than `min` bytes were read and no error occurred, read into the
rest of the buffer.  Afterwards the error is dropped when `min` bytes were
read, and `io.EOF` after a partial read becomes `io.ErrUnexpectedEOF`.
Every error-free `Read` into a non-empty buffer yields a byte, so `min + 1`
rounds of fuel are never used up. -/
def ioReadAtLeastLoop (stream bufLen min : Nat) :
    Nat → List Byte → World → (List Byte × error) × World
  | 0, got, w => ((got, none), w)
  | fuel + 1, got, w =>
    if got.length < min then
      match quicStreamRead stream (bufLen - got.length) w with
      | ((bs, none), w1) => ioReadAtLeastLoop stream bufLen min fuel (got ++ bs) w1
      | ((bs, some e), w1) =>
        if min ≤ (got ++ bs).length then ((got ++ bs, none), w1)
        else if 0 < (got ++ bs).length ∧ e = ioEOF then ((got ++ bs, some ioErrUnexpectedEOF), w1)
        else ((got ++ bs, some e), w1)
    else ((got, none), w)

/-- The call `io.ReadFull(stream, buf)` with `len(buf) = bufLen`. -/
def ioReadFull (stream bufLen : Nat) (w : World) : (List Byte × error) × World :=
  ioReadAtLeastLoop stream bufLen bufLen (bufLen + 1) [] w

/-! ## stream_conn.go -/

/-- The struct `StreamConn`; `stream` and `qconn` are pointers into the heaps. -/
structure StreamConn where
  stream : Nat
  qconn : Nat
  localAddr : Addr
  remoteAddr : Addr
  streamType : StreamType
  deriving DecidableEq, Repr

/-- The method `StreamConn.Read`, for a buffer of length `len`. -/
def StreamConn.Read (c : StreamConn) (len : Nat) (w : World) : (List Byte × error) × World :=
  quicStreamRead c.stream len w

/-- The method `StreamConn.Write`. -/
def StreamConn.Write (c : StreamConn) (b : List Byte) (w : World) : (Nat × error) × World :=
  quicStreamWrite c.stream b w

/-- The method `StreamConn.Close`. -/
def StreamConn.Close (c : StreamConn) (w : World) : error × World :=
  quicStreamClose c.stream w

/-- The method `StreamConn.LocalAddr`. -/
def StreamConn.LocalAddr (c : StreamConn) : Addr := c.localAddr

/-- The method `StreamConn.RemoteAddr`. -/
def StreamConn.RemoteAddr (c : StreamConn) : Addr := c.remoteAddr

/-- The method `StreamConn.SetDeadline`. -/
def StreamConn.SetDeadline (c : StreamConn) (t : Time) (w : World) : error × World :=
  match quicSetReadDeadline c.stream t w with
  | (some err, w1) => (some err, w1)
  | (none, w1) => quicSetWriteDeadline c.stream t w1

/-- The method `StreamConn.SetReadDeadline`. -/
def StreamConn.SetReadDeadline (c : StreamConn) (t : Time) (w : World) : error × World :=
  quicSetReadDeadline c.stream t w

/-- The method `StreamConn.SetWriteDeadline`. -/
def StreamConn.SetWriteDeadline (c : StreamConn) (t : Time) (w : World) : error × World :=
  quicSetWriteDeadline c.stream t w

/-- The method `StreamConn.StreamType`. -/
def StreamConn.StreamType (c : StreamConn) : StreamType := c.streamType

/-! ## mux.go -/

/-- The struct `MuxConn`.  The mutex `mu` has no state of its own in a
sequential run and is left out; `closed` and `closeErr` are the fields it
guards. -/
structure MuxConn where
  qconn : Nat
  localAddr : Addr
  remoteAddr : Addr
  closed : Bool
  closeErr : error
  deriving DecidableEq, Repr

/-- The function `NewMuxConn`. -/
def NewMuxConn (qconn : Nat) (w : World) : MuxConn :=
  { qconn := qconn
    localAddr := (w.conns qconn).script.localAddr
    remoteAddr := (w.conns qconn).script.remoteAddr
    closed := false
    closeErr := none }

/-- The method `MuxConn.OpenStream`: the returned `net.Conn` (`none` is nil),
the returned error, and the world afterwards. -/
def MuxConn.OpenStream (c : MuxConn) (ctx : Context) (streamType : StreamType) (w : World) :
    (Option StreamConn × error) × World :=
  if c.closed then
    ((none, some (fmtErrorf "connection closed" c.closeErr)), w)
  else
    match quicOpenStreamSync c.qconn ctx w with
    | (.error err, w1) => ((none, some (fmtErrorf "open stream" (some err))), w1)
    | (.ok stream, w1) =>
      match quicStreamWrite stream [streamType.toByte] w1 with
      | ((_, some err), w2) =>
        let (_, w3) := quicStreamClose stream w2
        ((none, some (fmtErrorf "write stream type" (some err))), w3)
      | ((_, none), w2) =>
        ((some { stream := stream
                 qconn := c.qconn
                 localAddr := c.localAddr
                 remoteAddr := c.remoteAddr
                 streamType := streamType }, none), w2)

/-- The method `MuxConn.AcceptStream`: the returned `net.Conn`, stream type
and error, and the world afterwards.  The zero `StreamType` accompanies every
failure. -/
def MuxConn.AcceptStream (c : MuxConn) (ctx : Context) (w : World) :
    (Option StreamConn × StreamType × error) × World :=
  if c.closed then
    ((none, StreamType.ofByte 0, some (fmtErrorf "connection closed" c.closeErr)), w)
  else
    match quicAcceptStream c.qconn ctx w with
    | (.error err, w1) =>
      ((none, StreamType.ofByte 0, some (fmtErrorf "accept stream" (some err))), w1)
    | (.ok stream, w1) =>
      match ioReadFull stream 1 w1 with
      | ((_, some err), w2) =>
        let (_, w3) := quicStreamClose stream w2
        ((none, StreamType.ofByte 0, some (fmtErrorf "read stream type" (some err))), w3)
      | ((typeBuf, none), w2) =>
        let streamType := StreamType.ofByte (typeBuf.getD 0 0)
        ((some { stream := stream
                 qconn := c.qconn
                 localAddr := c.localAddr
                 remoteAddr := c.remoteAddr
                 streamType := streamType }, streamType, none), w2)

/-- The method `MuxConn.LocalAddr`. -/
def MuxConn.LocalAddr (c : MuxConn) : Addr := c.localAddr

/-- The method `MuxConn.RemoteAddr`. -/
def MuxConn.RemoteAddr (c : MuxConn) : Addr := c.remoteAddr

/-- The method `MuxConn.Close`: the returned error, the `MuxConn` afterwards
and the world afterwards. -/
def MuxConn.Close (c : MuxConn) (w : World) : error × MuxConn × World :=
  if c.closed then
    (c.closeErr, c, w)
  else
    let (err, w1) := quicCloseWithError c.qconn 0 "connection closed" w
    (err, { c with closed := true, closeErr := err }, w1)

/-! ## conn.go -/

/-- The struct `Conn`. -/
structure Conn where
  stream : Nat
  qconn : Nat
  localAddr : Addr
  remoteAddr : Addr
  deriving DecidableEq, Repr

/-- The method `Conn.Read`, for a buffer of length `len`. -/
def Conn.Read (c : Conn) (len : Nat) (w : World) : (List Byte × error) × World :=
  quicStreamRead c.stream len w

/-- The method `Conn.Write`. -/
def Conn.Write (c : Conn) (b : List Byte) (w : World) : (Nat × error) × World :=
  quicStreamWrite c.stream b w

/-- The method `Conn.Close`. -/
def Conn.Close (c : Conn) (w : World) : error × World :=
  match quicStreamClose c.stream w with
  | (some err, w1) => (some err, w1)
  | (none, w1) => quicCloseWithError c.qconn 0 "connection closed" w1

/-- The method `Conn.LocalAddr`. -/
def Conn.LocalAddr (c : Conn) : Addr := c.localAddr

/-- The method `Conn.RemoteAddr`. -/
def Conn.RemoteAddr (c : Conn) : Addr := c.remoteAddr

/-- The method `Conn.SetDeadline`. -/
def Conn.SetDeadline (c : Conn) (t : Time) (w : World) : error × World :=
  match quicSetReadDeadline c.stream t w with
  | (some err, w1) => (some err, w1)
  | (none, w1) => quicSetWriteDeadline c.stream t w1

/-- The method `Conn.SetReadDeadline`. -/
def Conn.SetReadDeadline (c : Conn) (t : Time) (w : World) : error × World :=
  quicSetReadDeadline c.stream t w

/-- The method `Conn.SetWriteDeadline`. -/
def Conn.SetWriteDeadline (c : Conn) (t : Time) (w : World) : error × World :=
  quicSetWriteDeadline c.stream t w

/-! ## dialer.go -/

/-- The function `Dial`. -/
def Dial (ctx : Context) (addr : String) (tlsConfig : TLSConfig) (quicConfig : QuicConfig)
    (w : World) : (Option Conn × error) × World :=
  match quicDialAddr ctx addr tlsConfig quicConfig w with
  | (.error err, w1) => ((none, some err), w1)
  | (.ok qconn, w1) =>
    match quicOpenStreamSync qconn ctx w1 with
    | (.error err, w2) =>
      let (_, w3) := quicCloseWithError qconn 1 "failed to open stream" w2
      ((none, some err), w3)
    | (.ok stream, w2) =>
      ((some { stream := stream
               qconn := qconn
               localAddr := (w2.conns qconn).script.localAddr
               remoteAddr := (w2.conns qconn).script.remoteAddr }, none), w2)

/-! ## listener.go -/

/-- The struct `Listener`; `ql` is a pointer into the heap of listeners. -/
structure Listener where
  ql : Nat
  tlsConfig : TLSConfig
  deriving DecidableEq, Repr

/-- The method `Listener.Accept`. -/
def Listener.Accept (l : Listener) (w : World) : (Option Conn × error) × World :=
  let ctx := Context.Background
  match quicListenerAccept l.ql ctx w with
  | (.error err, w1) => ((none, some err), w1)
  | (.ok qconn, w1) =>
    match quicAcceptStream qconn ctx w1 with
    | (.error err, w2) =>
      let (_, w3) := quicCloseWithError qconn 1 "failed to accept stream" w2
      ((none, some err), w3)
    | (.ok stream, w2) =>
      ((some { stream := stream
               qconn := qconn
               localAddr := (w2.conns qconn).script.localAddr
               remoteAddr := (w2.conns qconn).script.remoteAddr }, none), w2)

/-- The method `Listener.Close`. -/
def Listener.Close (l : Listener) (w : World) : error × World :=
  quicListenerClose l.ql w

/-! ## Sequential runs of the multiplexer's methods -/

/-- The results of `n` sequential `c.Close()` calls, in call order, with the
`MuxConn` and the world after the last one. -/
def MuxConn.CloseTimes : Nat → MuxConn → World → List error × MuxConn × World
  | 0, c, w => ([], c, w)
  | n + 1, c, w =>
    match c.Close w with
    | (err, c1, w1) =>
      match MuxConn.CloseTimes n c1 w1 with
      | (errs, c2, w2) => (err :: errs, c2, w2)

/-- One call on a `MuxConn`. -/
inductive MuxOp where
  | OpenStream (ctx : Context) (streamType : StreamType)
  | AcceptStream (ctx : Context)
  | Close
  deriving DecidableEq, Repr

/-- What one call on a `MuxConn` returned. -/
inductive MuxResult where
  | OpenStream (conn : Option StreamConn) (err : error)
  | AcceptStream (conn : Option StreamConn) (streamType : StreamType) (err : error)
  | Close (err : error)
  deriving DecidableEq, Repr

/-- Perform one call on a `MuxConn`. -/
def MuxConn.step (c : MuxConn) (w : World) : MuxOp → MuxResult × MuxConn × World
  | .OpenStream ctx streamType =>
    match c.OpenStream ctx streamType w with
    | ((conn, err), w1) => (.OpenStream conn err, c, w1)
  | .AcceptStream ctx =>
    match c.AcceptStream ctx w with
    | ((conn, streamType, err), w1) => (.AcceptStream conn streamType err, c, w1)
  | .Close =>
    match c.Close w with
    | (err, c1, w1) => (.Close err, c1, w1)

/-- Perform a sequence of calls on a `MuxConn`, one after the other. -/
def MuxConn.run (c : MuxConn) (w : World) : List MuxOp → List MuxResult × MuxConn × World
  | [] => ([], c, w)
  | op :: ops =>
    match c.step w op with
    | (r, c1, w1) =>
      match MuxConn.run c1 w1 ops with
      | (rs, c2, w2) => (r :: rs, c2, w2)

/-- What a call on a closed `MuxConn` whose recorded close result is `closeErr`
returns: the recorded result for `Close`, and for the two stream calls a nil
stream with the "connection closed" error. -/
def closedAnswer (closeErr : error) : MuxOp → MuxResult
  | .OpenStream _ _ => .OpenStream none (some (fmtErrorf "connection closed" closeErr))
  | .AcceptStream _ => .AcceptStream none (StreamType.ofByte 0) (some (fmtErrorf "connection closed" closeErr))
  | .Close => .Close closeErr

/-- Successive `Read` calls on a `StreamConn`, one per buffer length in the
list: the bytes read, concatenated in read order, and the world afterwards. -/
def StreamConn.ReadChunks (c : StreamConn) : List Nat → World → List Byte × World
  | [], w => ([], w)
  | len :: lens, w =>
    match c.Read len w with
    | ((bs, _), w1) =>
      match StreamConn.ReadChunks c lens w1 with
      | (rest, w2) => (bs ++ rest, w2)

/-! ## Concrete worlds -/

/-- A stream script: the peer sends `recv` and then closes its side; `Write`
behaves as `writeFault` says; `Close` and the deadline setters succeed. -/
def exampleStream (recv : List Byte) (writeFault : Option (Nat × GoError)) : StreamScript :=
  { recv := recv
    recvEnd := ioEOF
    writeFault := writeFault
    closeResult := none
    setReadDeadlineResult := none
    setWriteDeadlineResult := none }

/-- A connection script that answers every `OpenStreamSync` with `opens`, every
`AcceptStream` with `accepts`, the first `CloseWithError` with `close` and the
later ones with nil. -/
def exampleConn (opens accepts : Except GoError StreamScript) (close : error) : ConnScript :=
  { localAddr := "127.0.0.1:4000"
    remoteAddr := "127.0.0.1:4433"
    openScript := fun _ => opens
    acceptScript := fun _ => accepts
    closeScript := fun k => if k = 0 then close else none }

/-- A world with the connection `cs` at index 0 and no stream yet, in which
every dial is answered with `dials` and every listener answers every `Accept`
with `dials`. -/
def exampleWorld (cs : ConnScript) (dials : Except GoError ConnScript) : World :=
  { conns := fun _ => QuicConn.new cs
    nextConn := 1
    streams := fun _ => QuicStream.new (exampleStream [] none)
    nextStream := 0
    listeners := fun _ =>
      { acceptScript := fun _ => dials, accepted := 0, closeResult := none, closeCalls := 0 }
    dialScript := fun _ => dials
    dialed := 0
    log := [] }

/-- The error value used where an example needs a failing library call. -/
def exampleError : GoError := .lib "timeout: no recent network activity"

/-- The bytes of the text "PING". -/
def examplePING : List Byte := [0x50, 0x49, 0x4E, 0x47]

/-- The sentinel `context.DeadlineExceeded`, which both `quic.DialAddr` and
`OpenStreamSync` return when the deadline of their context passes. -/
def contextDeadlineExceeded : GoError := .lib "context deadline exceeded"

/-- An open `MuxConn` on connection 0 of an example world. -/
def exampleMux : MuxConn :=
  { qconn := 0
    localAddr := "127.0.0.1:4000"
    remoteAddr := "127.0.0.1:4433"
    closed := false
    closeErr := none }

/-- A world in which every `OpenStreamSync` and every `AcceptStream` fails. -/
def noStreamWorld : World :=
  exampleWorld (exampleConn (.error exampleError) (.error exampleError) none)
    (.error exampleError)

/-- A world in which every opened stream refuses the first byte written and
every accepted stream was closed by the peer before it sent a byte. -/
def deadStreamWorld : World :=
  exampleWorld (exampleConn (.ok (exampleStream [] (some (0, exampleError))))
    (.ok (exampleStream [] none)) none) (.error exampleError)

/-! ## Concurrent callers of MuxConn.Close -/

/-- Where one caller of `MuxConn.Close` stands, by the line of mux.go it
executes next:
* `lock`: line 108, `c.mu.Lock()`; the caller waits while the mutex is held;
* `check`: line 111, `if c.closed`;
* `returnRecorded`: line 112, `return c.closeErr`, followed by the deferred
  `c.mu.Unlock()`;
* `setClosed`: line 114, `c.closed = true`;
* `teardown`: line 115, `c.closeErr = c.qconn.CloseWithError(0, "connection closed")`;
* `returnResult`: line 116, `return c.closeErr`, followed by the deferred
  `c.mu.Unlock()`;
* `done err`: the call has returned `err`. -/
inductive ClosePc where
  | lock
  | check
  | returnRecorded
  | setClosed
  | teardown
  | returnResult
  | done (err : error)
  deriving DecidableEq, Repr

/-- Whether a caller is between `Lock` and `Unlock`. -/
def ClosePc.critical : ClosePc → Bool
  | .check => true
  | .returnRecorded => true
  | .setClosed => true
  | .teardown => true
  | .returnResult => true
  | _ => false

/-- Whether a caller has returned. -/
def ClosePc.isDone : ClosePc → Bool
  | .done _ => true
  | _ => false

/-- The most steps a caller still takes before it returns. -/
def ClosePc.stepsLeft : ClosePc → Nat
  | .lock => 5
  | .check => 4
  | .setClosed => 3
  | .teardown => 2
  | .returnResult => 1
  | .returnRecorded => 1
  | .done _ => 0

/-- The state of `n` concurrent `Close` calls on one `MuxConn`: the shared
`MuxConn`, the mutex `mu` (the index of the caller holding it, if any), the
world, and where each caller stands. -/
structure CloseRace where
  n : Nat
  c : MuxConn
  mu : Option Nat
  w : World
  callers : Nat → ClosePc

/-- The state in which `n` callers have just called `c.Close()`. -/
def CloseRace.init (n : Nat) (c : MuxConn) (w : World) : CloseRace :=
  { n := n, c := c, mu := none, w := w, callers := fun _ => .lock }

/-- Let caller `i` execute its next line.  A caller at `Lock` moves only when
the mutex is free; a caller that has returned, or an index that names no
caller, leaves the state as it is. -/
def CloseRace.step (s : CloseRace) (i : Nat) : CloseRace :=
  if i < s.n then
    match s.callers i with
    | .lock =>
      match s.mu with
      | none => { s with mu := some i, callers := Function.update s.callers i .check }
      | some _ => s
    | .check =>
      if s.c.closed then { s with callers := Function.update s.callers i .returnRecorded }
      else { s with callers := Function.update s.callers i .setClosed }
    | .returnRecorded =>
      { s with mu := none, callers := Function.update s.callers i (.done s.c.closeErr) }
    | .setClosed =>
      { s with c := { s.c with closed := true },
               callers := Function.update s.callers i .teardown }
    | .teardown =>
      match quicCloseWithError s.c.qconn 0 "connection closed" s.w with
      | (err, w1) =>
        { s with c := { s.c with closeErr := err }, w := w1,
                 callers := Function.update s.callers i .returnResult }
    | .returnResult =>
      { s with mu := none, callers := Function.update s.callers i (.done s.c.closeErr) }
    | .done _ => s
  else s

/-- Run an interleaving: the schedule names, step by step, the caller that
moves next. -/
def CloseRace.run (s : CloseRace) (schedule : List Nat) : CloseRace :=
  schedule.foldl CloseRace.step s

/-- Whether every caller has returned. -/
def CloseRace.allDone (s : CloseRace) : Bool :=
  (List.range s.n).all fun j => (s.callers j).isDone

/-- The steps the callers can still take, all together. -/
def CloseRace.stepsLeft (s : CloseRace) : Nat :=
  ((List.range s.n).map fun j => (s.callers j).stepsLeft).sum

/-- The invariant of the concurrent `Close` calls that started from the open
`MuxConn` `c0` in the world `w0`.  The callers between `Lock` and `Unlock` are
exactly the holder of the mutex, and the state is in one of three phases:
* not yet closed: flag unset, the world is `w0`, and the holder, if any, is at
  the check or about to set the flag;
* closing: flag set, the world is still `w0`, and the holder is about to call
  `CloseWithError`;
* closed: flag set, the world is the one the single `CloseWithError` call
  left, its answer is recorded, and every caller that has returned has
  returned that answer. -/
def CloseRace.Inv (c0 : MuxConn) (w0 : World) (s : CloseRace) : Prop :=
  s.c.qconn = c0.qconn ∧ s.c.localAddr = c0.localAddr ∧ s.c.remoteAddr = c0.remoteAddr ∧
  (∀ j, (s.callers j).critical = true → s.mu = some j) ∧
  (∀ j, s.mu = some j → j < s.n ∧ (s.callers j).critical = true) ∧
  ((s.c.closed = false ∧ s.c.closeErr = c0.closeErr ∧ s.w = w0 ∧
      ∀ j, s.callers j = .lock ∨ s.callers j = .check ∨ s.callers j = .setClosed) ∨
    (s.c.closed = true ∧ s.c.closeErr = c0.closeErr ∧ s.w = w0 ∧
      (∃ j, s.mu = some j ∧ s.callers j = .teardown) ∧
      ∀ j, s.callers j = .lock ∨ s.callers j = .teardown) ∨
    (s.c.closed = true ∧
      s.c.closeErr = (quicCloseWithError c0.qconn 0 "connection closed" w0).1 ∧
      s.w = (quicCloseWithError c0.qconn 0 "connection closed" w0).2 ∧
      ∀ j, s.callers j = .lock ∨ s.callers j = .check ∨ s.callers j = .returnRecorded ∨
        s.callers j = .returnResult ∨
        s.callers j = .done (quicCloseWithError c0.qconn 0 "connection closed" w0).1))

/-! ## Identity and trust (package pki, not among the sources) -/

/-- Modelled from the spec: the TrustAnchor of §3, a self-signed root key pair
with its certificate.  The package `pki` that builds it is not among the
sources; the key pair is represented by a number, and two anchors are the same
root exactly when their keys are equal. -/
structure TrustAnchor where
  key : Nat
  deriving DecidableEq, Repr

/-- Modelled from the spec: the Identity of §3, a role tag (`controller` or
`unit`) and an instance name. -/
structure Identity where
  role : String
  name : String
  deriving DecidableEq, Repr

/-- Modelled from the spec: the LeafCertificate of §3, signed by a TrustAnchor
(recorded as the key that signed it), carrying an identity and the
extended-key-usage flags server-auth and client-auth. -/
structure LeafCertificate where
  signedBy : Nat
  identity : Identity
  serverAuth : Bool
  clientAuth : Bool
  deriving DecidableEq, Repr

/-- Modelled from the spec: `GenerateCA()` of §4.3, which generates a key pair
and a self-signed certificate; the freshly generated key is passed in. -/
def GenerateCA (key : Nat) : TrustAnchor := { key := key }

/-- Modelled from the spec: `GenerateCert(anchor, identity, isServer, isClient)`
of §4.3, which embeds `identity`, sets the extended-key-usage per the flags
and signs with the anchor's private key. -/
def GenerateCert (anchor : TrustAnchor) (identity : Identity) (isServer isClient : Bool) :
    LeafCertificate :=
  { signedBy := anchor.key, identity := identity, serverAuth := isServer, clientAuth := isClient }

/-- Modelled from the spec: a certificate chains to a trust anchor when that
anchor's key signed it. -/
def LeafCertificate.chainsTo (cert : LeafCertificate) (anchor : TrustAnchor) : Bool :=
  decide (cert.signedBy = anchor.key)

/-- Modelled from the spec: what a TLS configuration of §4.3 holds, namely the
certificate it presents, the trust anchor it verifies the remote peer's
certificate against, and the server name a dialing side expects. -/
structure TLSSettings where
  cert : LeafCertificate
  anchor : TrustAnchor
  expectedServerName : Option String
  deriving DecidableEq, Repr

/-- Modelled from the spec: `ServerTLSConfig(cert, anchor)` of §4.3, presenting
`cert`, requiring and verifying that the remote peer presents a certificate
chaining to `anchor`. -/
def ServerTLSConfig (cert : LeafCertificate) (anchor : TrustAnchor) : TLSSettings :=
  { cert := cert, anchor := anchor, expectedServerName := none }

/-- Modelled from the spec: `ClientTLSConfig(cert, anchor, expectedServerName)`
of §4.3, presenting `cert` as client credential and trusting only `anchor` as
root. -/
def ClientTLSConfig (cert : LeafCertificate) (anchor : TrustAnchor)
    (expectedServerName : String) : TLSSettings :=
  { cert := cert, anchor := anchor, expectedServerName := some expectedServerName }

/-- The error of a `quic.DialAddr` whose dialing side could not verify the
certificate the listening side presented. -/
def tlsUnknownAuthority : GoError :=
  .lib "CRYPTO_ERROR 0x12a (local): tls: failed to verify certificate: x509: certificate signed by unknown authority"

/-- The error a closed listener answers `Accept` with. -/
def quicErrServerClosed : GoError := .lib "quic: server closed"

/-- The dialing side's part of the handshake, in the order of TLS 1.3 as
crypto/tls runs it under quic-go: the dialing peer verifies the certificate
the listening peer presents against its own trust anchor, sends its own
certificate and is done; it does not wait for the listening peer's verdict on
that certificate.  The result is nil when the dialing side's handshake
completes.  The validation of the server name is left out: the spec does not
say which names a certificate carries. -/
def dialerHandshake (dialing listening : TLSSettings) : error :=
  if listening.cert.chainsTo dialing.anchor then none else some tlsUnknownAuthority

/-- The listening side's part of the handshake: it completes when the dialing
side completed its part and the certificate the dialing peer presents chains
to the listening side's trust anchor. -/
def listenerAdmits (dialing listening : TLSSettings) : Bool :=
  (dialerHandshake dialing listening).isNone && dialing.cert.chainsTo listening.anchor

/-- What `quic.DialAddr` answers a dialing peer: the error of the dialing
side's handshake, or else the new connection. -/
def dialOutcome (dialing listening : TLSSettings) (conn : ConnScript) :
    Except GoError ConnScript :=
  match dialerHandshake dialing listening with
  | some e => .error e
  | none => .ok conn

/-- What the listener's `Accept` answers next when this peer dials: the peer's
connection when the listening side's handshake completes.  Otherwise the
listener never hands that connection out and `Accept` goes on waiting, so its
answer is whatever comes after, `otherwise`: the connection of a later peer,
or the error of the listener being closed. -/
def acceptOutcome (dialing listening : TLSSettings) (conn : ConnScript)
    (otherwise : Except GoError ConnScript) : Except GoError ConnScript :=
  if listenerAdmits dialing listening then .ok conn else otherwise

/-- The world in which the next `quic.DialAddr` is answered with `outcome`. -/
def World.dialing (w : World) (outcome : Except GoError ConnScript) : World :=
  { w with dialScript := Function.update w.dialScript w.dialed outcome }

/-- The world in which the next `Accept` of listener `ql` is answered with
`outcome`. -/
def World.arriving (w : World) (ql : Nat) (outcome : Except GoError ConnScript) : World :=
  w.setListener ql
    { w.listeners ql with
      acceptScript := Function.update (w.listeners ql).acceptScript (w.listeners ql).accepted
        outcome }

/-- Three TLS configurations.  Config 0 is the listening side's of the test
`TestConnectionRequiresMTLS`, built from a unit certificate of the anchor with
key 1.  Config 1 is the dialing side's of that test, built from a controller
certificate of a second, freshly generated anchor with key 2, which it also
takes as its only root.  Every other config is a dialing side that presents
the same certificate of the anchor with key 2 but takes the listening side's
anchor with key 1 as its root. -/
def exampleConfigs (c : TLSConfig) : TLSSettings :=
  if c.id = 0 then
    ServerTLSConfig (GenerateCert (GenerateCA 1) ⟨"unit", "test"⟩ true false) (GenerateCA 1)
  else if c.id = 1 then
    ClientTLSConfig (GenerateCert (GenerateCA 2) ⟨"controller", "cmdr"⟩ false true)
      (GenerateCA 2) "localhost"
  else
    ClientTLSConfig (GenerateCert (GenerateCA 2) ⟨"controller", "cmdr"⟩ false true)
      (GenerateCA 1) "localhost"

/-! ## Theorems -/

/-- The text of an error made by `fmt.Errorf(pfx + ": %w", err)` starts with
`pfx` and a colon. -/
theorem fmtErrorf_Error (pfx : String) (err : error) :
    ∃ rest, (fmtErrorf pfx err).Error = pfx ++ ": " ++ rest := by
  cases err with
  | none => exact ⟨"%!w(<nil>)", by simp [fmtErrorf, GoError.Error, String.append_assoc]⟩
  | some cause => exact ⟨cause.Error, by simp [fmtErrorf, GoError.Error]⟩

/-- A closed `MuxConn` answers `Close` with the recorded result and changes
nothing. -/
theorem MuxConn.Close_of_closed (c : MuxConn) (w : World) (h : c.closed = true) :
    c.Close w = (c.closeErr, c, w) := by
  simp [MuxConn.Close, h]

/-- Any number of `Close` calls on a closed `MuxConn` return the recorded
result and change nothing. -/
theorem MuxConn.CloseTimes_of_closed (n : Nat) (c : MuxConn) (w : World) (h : c.closed = true) :
    MuxConn.CloseTimes n c w = (List.replicate n c.closeErr, c, w) := by
  induction n with
  | zero => rfl
  | succ n ih => simp [MuxConn.CloseTimes, MuxConn.Close_of_closed c w h, ih, List.replicate_succ]

/-- C1: `MuxConn.Close` is idempotent.  Starting from a `MuxConn` that is not
closed, `n + 1` sequential `Close` calls make exactly one library call, namely
`CloseWithError(0, "connection closed")` on the underlying connection (made by
the first call); its answer is recorded in `closeErr`, and each of the `n + 1`
calls returns that same answer, be it nil or an error. -/
theorem MuxConn.Close_idempotent (c : MuxConn) (w : World) (n : Nat) (h : c.closed = false) :
    (c.Close w).2.2.log = w.log ++ [Call.CloseWithError c.qconn 0 "connection closed"] ∧
    (MuxConn.CloseTimes (n + 1) c w).2.2 = (c.Close w).2.2 ∧
    ((MuxConn.CloseTimes (n + 1) c w).2.2.conns c.qconn).closeCalls =
      (w.conns c.qconn).closeCalls ++ [(0, "connection closed")] ∧
    (MuxConn.CloseTimes (n + 1) c w).2.1.closed = true ∧
    (MuxConn.CloseTimes (n + 1) c w).2.1.closeErr =
      (w.conns c.qconn).script.closeScript (w.conns c.qconn).closeCalls.length ∧
    (MuxConn.CloseTimes (n + 1) c w).1 =
      List.replicate (n + 1)
        ((w.conns c.qconn).script.closeScript (w.conns c.qconn).closeCalls.length) := by
  have hc : c.Close w =
      ((w.conns c.qconn).script.closeScript (w.conns c.qconn).closeCalls.length,
        { c with closed := true,
                 closeErr := (w.conns c.qconn).script.closeScript (w.conns c.qconn).closeCalls.length },
        (quicCloseWithError c.qconn 0 "connection closed" w).2) := by
    simp [MuxConn.Close, h, quicCloseWithError]
  have ht := MuxConn.CloseTimes_of_closed n
    { c with closed := true,
             closeErr := (w.conns c.qconn).script.closeScript (w.conns c.qconn).closeCalls.length }
    (quicCloseWithError c.qconn 0 "connection closed" w).2 rfl
  simp only [MuxConn.CloseTimes, hc, ht]
  simp [quicCloseWithError, World.record, World.setConn, List.replicate_succ]

/-- After `Close` the `MuxConn` is closed, whatever it was before. -/
theorem MuxConn.Close_closed (c : MuxConn) (w : World) : (c.Close w).2.1.closed = true := by
  cases h : c.closed <;> simp [MuxConn.Close, h]

/-- On a closed `MuxConn` every call returns its closed answer and changes
neither the `MuxConn` nor the world. -/
theorem MuxConn.step_of_closed (c : MuxConn) (w : World) (op : MuxOp) (h : c.closed = true) :
    c.step w op = (closedAnswer c.closeErr op, c, w) := by
  cases op <;> simp [MuxConn.step, MuxConn.OpenStream, MuxConn.AcceptStream, MuxConn.Close, h,
    closedAnswer]

/-- On a closed `MuxConn` every sequence of calls returns the closed answers
and changes neither the `MuxConn` nor the world. -/
theorem MuxConn.run_of_closed (c : MuxConn) (w : World) (ops : List MuxOp) (h : c.closed = true) :
    c.run w ops = (ops.map (closedAnswer c.closeErr), c, w) := by
  induction ops with
  | nil => rfl
  | cons op ops ih => simp [MuxConn.run, MuxConn.step_of_closed c w op h, ih]

/-- C2: closed is terminal.  Let `Close` have been called on a `MuxConn` (in
any state).  Then every further sequence of `OpenStream`, `AcceptStream` and
`Close` calls leaves the `MuxConn` as it was, with the closed flag set, and
leaves the whole world as it was: the log gains no library call (no
`OpenStreamSync`, no `AcceptStream`, no `Write`, no `Read`) and no stream
changes.  Each `OpenStream` and `AcceptStream` returns a nil stream and a
non-nil error whose text starts with "connection closed: ", also when the
recorded close result is nil. -/
theorem MuxConn.closed_terminal (c : MuxConn) (w : World) (ops : List MuxOp) :
    (c.Close w).2.1.closed = true ∧
    ((c.Close w).2.1.run (c.Close w).2.2 ops).2.1 = (c.Close w).2.1 ∧
    ((c.Close w).2.1.run (c.Close w).2.2 ops).2.2 = (c.Close w).2.2 ∧
    ((c.Close w).2.1.run (c.Close w).2.2 ops).1 =
      ops.map (closedAnswer (c.Close w).2.1.closeErr) ∧
    (∀ ctx streamType, ∃ e rest,
      closedAnswer (c.Close w).2.1.closeErr (.OpenStream ctx streamType) =
        .OpenStream none (some e) ∧
      e.Error = "connection closed: " ++ rest) ∧
    (∀ ctx, ∃ e rest,
      closedAnswer (c.Close w).2.1.closeErr (.AcceptStream ctx) =
        .AcceptStream none (StreamType.ofByte 0) (some e) ∧
      e.Error = "connection closed: " ++ rest) := by
  have hcl := MuxConn.Close_closed c w
  have hrun := MuxConn.run_of_closed (c.Close w).2.1 (c.Close w).2.2 ops hcl
  refine ⟨hcl, by rw [hrun], by rw [hrun], by rw [hrun], ?_, ?_⟩
  · intro ctx streamType
    obtain ⟨rest, hrest⟩ := fmtErrorf_Error "connection closed" (c.Close w).2.1.closeErr
    exact ⟨_, rest, rfl, hrest⟩
  · intro ctx
    obtain ⟨rest, hrest⟩ := fmtErrorf_Error "connection closed" (c.Close w).2.1.closeErr
    exact ⟨_, rest, rfl, hrest⟩

/-- Witness for C1: three `Close` calls on a fresh `MuxConn` whose connection
answers the first `CloseWithError` with an error and any later one with nil
all return that error, after a single library call. -/
theorem MuxConn.Close_idempotent_witness :
    (NewMuxConn 0 (exampleWorld (exampleConn (.error exampleError) (.error exampleError)
      (some exampleError)) (.error exampleError))).closed = false ∧
    ((NewMuxConn 0 (exampleWorld (exampleConn (.error exampleError) (.error exampleError)
      (some exampleError)) (.error exampleError))).CloseTimes 3
      (exampleWorld (exampleConn (.error exampleError) (.error exampleError)
        (some exampleError)) (.error exampleError))).2.2.log =
      [Call.CloseWithError 0 0 "connection closed"] ∧
    ((NewMuxConn 0 (exampleWorld (exampleConn (.error exampleError) (.error exampleError)
      (some exampleError)) (.error exampleError))).CloseTimes 3
      (exampleWorld (exampleConn (.error exampleError) (.error exampleError)
        (some exampleError)) (.error exampleError))).1 =
      [some exampleError, some exampleError, some exampleError] :=
  have h := MuxConn.Close_idempotent
    (NewMuxConn 0 (exampleWorld (exampleConn (.error exampleError) (.error exampleError)
      (some exampleError)) (.error exampleError)))
    (exampleWorld (exampleConn (.error exampleError) (.error exampleError)
      (some exampleError)) (.error exampleError)) 2 rfl
  ⟨rfl, h.2.1.symm ▸ h.1, h.2.2.2.2.2⟩

/-! ### What the library calls do to the world -/

/-- A successful `OpenStreamSync` hands out the next heap index, holding a new
stream, and logs one call. -/
theorem quicOpenStreamSync_ok (qconn : Nat) (ctx : Context) (w : World) (stream : Nat)
    (h : (quicOpenStreamSync qconn ctx w).1 = .ok stream) :
    ∃ script, (w.conns qconn).script.openScript (w.conns qconn).opened = .ok script ∧
      stream = w.nextStream ∧
      (quicOpenStreamSync qconn ctx w).2.streams stream = QuicStream.new script ∧
      (quicOpenStreamSync qconn ctx w).2.log = w.log ++ [.OpenStreamSync qconn ctx] := by
  unfold quicOpenStreamSync at h ⊢
  cases hs : (w.conns qconn).script.openScript (w.conns qconn).opened with
  | error e => simp [hs] at h
  | ok script =>
    simp [hs, World.allocStream, World.setStream, World.setConn, World.record] at h ⊢
    subst h
    simp

/-- A successful `AcceptStream` hands out the next heap index, holding a new
stream, and logs one call. -/
theorem quicAcceptStream_ok (qconn : Nat) (ctx : Context) (w : World) (stream : Nat)
    (h : (quicAcceptStream qconn ctx w).1 = .ok stream) :
    ∃ script, (w.conns qconn).script.acceptScript (w.conns qconn).accepted = .ok script ∧
      stream = w.nextStream ∧
      (quicAcceptStream qconn ctx w).2.streams stream = QuicStream.new script ∧
      (quicAcceptStream qconn ctx w).2.log = w.log ++ [.AcceptStream qconn ctx] := by
  unfold quicAcceptStream at h ⊢
  cases hs : (w.conns qconn).script.acceptScript (w.conns qconn).accepted with
  | error e => simp [hs] at h
  | ok script =>
    simp [hs, World.allocStream, World.setStream, World.setConn, World.record] at h ⊢
    subst h
    simp

/-- Every `Write` logs exactly one call. -/
theorem quicStreamWrite_log (stream : Nat) (p : List Byte) (w : World) :
    (quicStreamWrite stream p w).2.log = w.log ++ [.Write stream p] := by
  unfold quicStreamWrite
  dsimp only
  split
  · simp [World.setStream, World.record]
  · split <;> simp [World.setStream, World.record]

/-- A `Write` appends to `sent` as many bytes of its argument as it reports. -/
theorem quicStreamWrite_sent (stream : Nat) (p : List Byte) (w : World) :
    ((quicStreamWrite stream p w).2.streams stream).sent =
      (w.streams stream).sent ++ p.take (quicStreamWrite stream p w).1.1 := by
  unfold quicStreamWrite
  dsimp only
  split
  · simp [World.setStream, World.record]
  · split <;> simp [World.setStream, World.record]

/-- A `Write` never touches the heap of connections. -/
theorem quicStreamWrite_conns (stream : Nat) (p : List Byte) (w : World) :
    (quicStreamWrite stream p w).2.conns = w.conns := by
  unfold quicStreamWrite
  dsimp only
  split
  · simp [World.setStream, World.record]
  · split <;> simp [World.setStream, World.record]

/-- A `Write` that reports no error has taken its whole argument. -/
theorem quicStreamWrite_ok (stream : Nat) (p : List Byte) (w : World)
    (h : (quicStreamWrite stream p w).1.2 = none) :
    (quicStreamWrite stream p w).1.1 = p.length := by
  unfold quicStreamWrite at h ⊢
  dsimp only at h ⊢
  split
  · simp [World.setStream, World.record]
  · split <;> simp_all [World.setStream, World.record]

/-- A `Read` returns the first `len` unread bytes and leaves the others. -/
theorem quicStreamRead_bytes (stream len : Nat) (w : World) :
    (quicStreamRead stream len w).1.1 = (w.streams stream).recv.take len ∧
    ((quicStreamRead stream len w).2.streams stream).recv = (w.streams stream).recv.drop len := by
  unfold quicStreamRead
  dsimp only
  split
  · next h => subst h; simp [World.record]
  · split
    · next h => simp [World.record, h]
    · next h => simp [World.record, World.setStream, h]

/-- The call `io.ReadFull` with a one-byte buffer on a stream that holds an
unread byte: one `Read`, one byte, no error. -/
theorem ioReadFull_one_cons (stream : Nat) (w : World) (b : Byte) (rest : List Byte)
    (h : (w.streams stream).recv = b :: rest) :
    ioReadFull stream 1 w =
      (([b], none),
        (w.record (.Read stream 1)).setStream stream { w.streams stream with recv := rest }) := by
  simp [ioReadFull, ioReadAtLeastLoop, quicStreamRead, h]

/-- The call `io.ReadFull` with a one-byte buffer on a stream without unread
bytes: one `Read`, no byte, and the stream's end error unchanged. -/
theorem ioReadFull_one_nil (stream : Nat) (w : World) (h : (w.streams stream).recv = []) :
    ioReadFull stream 1 w =
      (([], some (w.streams stream).script.recvEnd), w.record (.Read stream 1)) := by
  simp [ioReadFull, ioReadAtLeastLoop, quicStreamRead, h]

/-- The call `io.ReadFull` with a one-byte buffer always makes exactly one
`Read`. -/
theorem ioReadFull_one_log (stream : Nat) (w : World) :
    (ioReadFull stream 1 w).2.log = w.log ++ [.Read stream 1] := by
  cases h : (w.streams stream).recv with
  | nil => simp [ioReadFull_one_nil stream w h, World.record]
  | cons b rest => simp [ioReadFull_one_cons stream w b rest h, World.record, World.setStream]

/-- A stream `Close` logs one call, counts it, and leaves the connections
alone. -/
theorem quicStreamClose_effect (stream : Nat) (w : World) :
    (quicStreamClose stream w).1 = (w.streams stream).script.closeResult ∧
    (quicStreamClose stream w).2.log = w.log ++ [.Close stream] ∧
    (quicStreamClose stream w).2.conns = w.conns ∧
    ((quicStreamClose stream w).2.streams stream).closeCalls =
      (w.streams stream).closeCalls + 1 := by
  simp [quicStreamClose, World.record, World.setStream]

/-! ### OpenStream and AcceptStream -/

/-- On an open `MuxConn`, `OpenStream` is an `OpenStreamSync`, a one-byte
`Write` and, if both succeed, a tagged `StreamConn`. -/
theorem MuxConn.OpenStream_ok (c : MuxConn) (ctx : Context) (p : StreamType) (w : World)
    (stream : Nat) (hopen : c.closed = false)
    (hstream : (quicOpenStreamSync c.qconn ctx w).1 = .ok stream)
    (hwrite : (quicStreamWrite stream [p.toByte] (quicOpenStreamSync c.qconn ctx w).2).1.2 = none) :
    c.OpenStream ctx p w =
      ((some ⟨stream, c.qconn, c.localAddr, c.remoteAddr, p⟩, none),
        (quicStreamWrite stream [p.toByte] (quicOpenStreamSync c.qconn ctx w).2).2) := by
  unfold MuxConn.OpenStream
  simp only [hopen]
  generalize quicOpenStreamSync c.qconn ctx w = r at *
  obtain ⟨r1, w1⟩ := r
  simp at hstream
  subst hstream
  simp
  generalize quicStreamWrite stream [p.toByte] w1 = r2 at *
  obtain ⟨⟨n, e⟩, w2⟩ := r2
  simp at hwrite
  subst hwrite
  simp

/-- C3: on an open `MuxConn` on which the underlying `OpenStreamSync` and the
`Write` succeed, `OpenStream(ctx, p)` returns a `StreamConn` on the new stream
with `StreamType() = p`; it makes exactly two library calls, the
`OpenStreamSync` and one `Write` of the single byte `byte(p)`; on return the
stream holds exactly that one byte; and whatever the caller writes on the
returned `StreamConn` afterwards goes behind that byte. -/
theorem MuxConn.OpenStream_writes_purpose (c : MuxConn) (ctx : Context) (p : StreamType)
    (w : World) (stream : Nat) (hopen : c.closed = false)
    (hstream : (quicOpenStreamSync c.qconn ctx w).1 = .ok stream)
    (hwrite : (quicStreamWrite stream [p.toByte] (quicOpenStreamSync c.qconn ctx w).2).1.2 = none) :
    ∃ sc, (c.OpenStream ctx p w).1 = (some sc, none) ∧
      sc.stream = stream ∧
      sc.StreamType = p ∧
      (c.OpenStream ctx p w).2.log =
        w.log ++ [.OpenStreamSync c.qconn ctx, .Write stream [p.toByte]] ∧
      ((c.OpenStream ctx p w).2.streams stream).sent = [p.toByte] ∧
      ∀ d : List Byte,
        ((sc.Write d (c.OpenStream ctx p w).2).2.streams stream).sent =
          p.toByte :: d.take (sc.Write d (c.OpenStream ctx p w).2).1.1 := by
  obtain ⟨script, _, _, hnew, hlog⟩ := quicOpenStreamSync_ok c.qconn ctx w stream hstream
  have hw := quicStreamWrite_ok _ _ _ hwrite
  have hsent := quicStreamWrite_sent stream [p.toByte] (quicOpenStreamSync c.qconn ctx w).2
  have hwlog := quicStreamWrite_log stream [p.toByte] (quicOpenStreamSync c.qconn ctx w).2
  have hone : ((quicStreamWrite stream [p.toByte]
      (quicOpenStreamSync c.qconn ctx w).2).2.streams stream).sent = [p.toByte] := by
    simp [hsent, hw, hnew, QuicStream.new]
  refine ⟨⟨stream, c.qconn, c.localAddr, c.remoteAddr, p⟩, ?_, rfl, rfl, ?_, ?_, ?_⟩
  · rw [MuxConn.OpenStream_ok c ctx p w stream hopen hstream hwrite]
  · rw [MuxConn.OpenStream_ok c ctx p w stream hopen hstream hwrite]
    simp [hwlog, hlog]
  · rw [MuxConn.OpenStream_ok c ctx p w stream hopen hstream hwrite]
    exact hone
  · intro d
    rw [MuxConn.OpenStream_ok c ctx p w stream hopen hstream hwrite]
    simp only [StreamConn.Write]
    rw [quicStreamWrite_sent, hone]
    rfl

/-- Witness for C3: opening a control stream on a fresh connection whose
library calls succeed. -/
theorem MuxConn.OpenStream_writes_purpose_witness :
    ∃ sc,
      ((NewMuxConn 0 (exampleWorld (exampleConn (.ok (exampleStream [] none))
          (.error exampleError) none) (.error exampleError))).OpenStream (.other 7)
        StreamTypeControl
        (exampleWorld (exampleConn (.ok (exampleStream [] none)) (.error exampleError) none)
          (.error exampleError))).1 = (some sc, none) ∧
      sc.stream = 0 ∧ sc.StreamType = StreamTypeControl ∧
      ((NewMuxConn 0 (exampleWorld (exampleConn (.ok (exampleStream [] none))
          (.error exampleError) none) (.error exampleError))).OpenStream (.other 7)
        StreamTypeControl
        (exampleWorld (exampleConn (.ok (exampleStream [] none)) (.error exampleError) none)
          (.error exampleError))).2.log = [.OpenStreamSync 0 (.other 7), .Write 0 [0x01]] :=
  match MuxConn.OpenStream_writes_purpose
      (NewMuxConn 0 (exampleWorld (exampleConn (.ok (exampleStream [] none))
        (.error exampleError) none) (.error exampleError)))
      (.other 7) StreamTypeControl
      (exampleWorld (exampleConn (.ok (exampleStream [] none)) (.error exampleError) none)
        (.error exampleError)) 0 rfl rfl rfl with
  | ⟨sc, h1, h2, h3, h4, _⟩ => ⟨sc, h1, h2, h3, h4⟩

/-- On an open `MuxConn`, `AcceptStream` on a stream that holds an unread byte
is an `AcceptStream` of the library, a one-byte `Read` and a `StreamConn`
tagged with that byte. -/
theorem MuxConn.AcceptStream_ok (c : MuxConn) (ctx : Context) (w : World) (stream : Nat)
    (b : Byte) (rest : List Byte) (hopen : c.closed = false)
    (hstream : (quicAcceptStream c.qconn ctx w).1 = .ok stream)
    (hfirst : ((quicAcceptStream c.qconn ctx w).2.streams stream).recv = b :: rest) :
    c.AcceptStream ctx w =
      ((some ⟨stream, c.qconn, c.localAddr, c.remoteAddr, StreamType.ofByte b⟩,
          StreamType.ofByte b, none),
        (ioReadFull stream 1 (quicAcceptStream c.qconn ctx w).2).2) := by
  unfold MuxConn.AcceptStream
  simp only [hopen]
  generalize quicAcceptStream c.qconn ctx w = r at *
  obtain ⟨r1, w1⟩ := r
  simp at hstream hfirst
  subst hstream
  simp [ioReadFull_one_cons stream w1 b rest hfirst]

/-- C4: `AcceptStream` performs no purpose validation.  For every byte `b`, on
an open `MuxConn` whose library `AcceptStream` succeeds with a stream whose
first unread byte is `b`, `AcceptStream` succeeds, returns the purpose
`StreamType(b)` (whose byte is `b` again) and a `StreamConn` whose
`StreamType()` is that value; it makes one `Read` with a one-byte buffer and
leaves every byte after the first unread. -/
theorem MuxConn.AcceptStream_any_purpose (c : MuxConn) (ctx : Context) (w : World)
    (stream : Nat) (b : Byte) (rest : List Byte) (hopen : c.closed = false)
    (hstream : (quicAcceptStream c.qconn ctx w).1 = .ok stream)
    (hfirst : ((quicAcceptStream c.qconn ctx w).2.streams stream).recv = b :: rest) :
    ∃ sc, (c.AcceptStream ctx w).1 = (some sc, StreamType.ofByte b, none) ∧
      sc.stream = stream ∧
      sc.StreamType = StreamType.ofByte b ∧
      (StreamType.ofByte b).toByte = b ∧
      (c.AcceptStream ctx w).2.log =
        w.log ++ [.AcceptStream c.qconn ctx, .Read stream 1] ∧
      ((c.AcceptStream ctx w).2.streams stream).recv = rest := by
  obtain ⟨script, _, _, _, hlog⟩ := quicAcceptStream_ok c.qconn ctx w stream hstream
  refine ⟨⟨stream, c.qconn, c.localAddr, c.remoteAddr, StreamType.ofByte b⟩, ?_, rfl, rfl, rfl,
    ?_, ?_⟩
  · rw [MuxConn.AcceptStream_ok c ctx w stream b rest hopen hstream hfirst]
  · rw [MuxConn.AcceptStream_ok c ctx w stream b rest hopen hstream hfirst,
      ioReadFull_one_log, hlog]
    simp
  · rw [MuxConn.AcceptStream_ok c ctx w stream b rest hopen hstream hfirst,
      ioReadFull_one_cons stream _ b rest hfirst]
    simp [World.setStream]

/-- Witness for C4: a stream whose first byte is 0x7f, a value that is neither
control nor a2a, followed by two more bytes. -/
theorem MuxConn.AcceptStream_any_purpose_witness :
    ∃ sc,
      ((NewMuxConn 0 (exampleWorld (exampleConn (.error exampleError)
          (.ok (exampleStream [0x7f, 0x01, 0x02] none)) none) (.error exampleError))).AcceptStream
        (.other 7)
        (exampleWorld (exampleConn (.error exampleError)
          (.ok (exampleStream [0x7f, 0x01, 0x02] none)) none) (.error exampleError))).1 =
        (some sc, StreamType.ofByte 0x7f, none) ∧
      sc.StreamType = StreamType.ofByte 0x7f ∧
      (((NewMuxConn 0 (exampleWorld (exampleConn (.error exampleError)
          (.ok (exampleStream [0x7f, 0x01, 0x02] none)) none) (.error exampleError))).AcceptStream
        (.other 7)
        (exampleWorld (exampleConn (.error exampleError)
          (.ok (exampleStream [0x7f, 0x01, 0x02] none)) none)
          (.error exampleError))).2.streams 0).recv = [0x01, 0x02] :=
  match MuxConn.AcceptStream_any_purpose
      (NewMuxConn 0 (exampleWorld (exampleConn (.error exampleError)
        (.ok (exampleStream [0x7f, 0x01, 0x02] none)) none) (.error exampleError)))
      (.other 7)
      (exampleWorld (exampleConn (.error exampleError)
        (.ok (exampleStream [0x7f, 0x01, 0x02] none)) none) (.error exampleError))
      0 0x7f [0x01, 0x02] rfl rfl rfl with
  | ⟨sc, h1, _, h3, _, _, h6⟩ => ⟨sc, h1, h3, h6⟩

/-! ### Round trip -/

/-- If `OpenStream` returns a stream and no error, the `MuxConn` was open, both
library calls succeeded, and the returned `StreamConn` is the tagged new
stream. -/
theorem MuxConn.OpenStream_inv (c : MuxConn) (ctx : Context) (p : StreamType) (w : World)
    (sc : StreamConn) (h : (c.OpenStream ctx p w).1 = (some sc, none)) :
    c.closed = false ∧
    (quicOpenStreamSync c.qconn ctx w).1 = .ok sc.stream ∧
    (quicStreamWrite sc.stream [p.toByte] (quicOpenStreamSync c.qconn ctx w).2).1.2 = none ∧
    sc = ⟨sc.stream, c.qconn, c.localAddr, c.remoteAddr, p⟩ := by
  unfold MuxConn.OpenStream at h
  cases hc : c.closed with
  | true => simp [hc] at h
  | false =>
    simp only [hc] at h
    generalize quicOpenStreamSync c.qconn ctx w = r at *
    obtain ⟨r1, w1⟩ := r
    cases r1 with
    | error e => simp at h
    | ok stream =>
      simp only [Bool.false_eq_true, if_false] at h
      generalize hr2 : quicStreamWrite stream [p.toByte] w1 = r2 at *
      obtain ⟨⟨n, e⟩, w2⟩ := r2
      cases e with
      | some e => simp at h
      | none =>
        simp at h
        subst h
        simp [hr2]

/-- When `OpenStream` has succeeded, the new stream holds the purpose byte
and nothing else. -/
theorem MuxConn.OpenStream_sent (c : MuxConn) (ctx : Context) (p : StreamType) (w : World)
    (stream : Nat) (hopen : c.closed = false)
    (hstream : (quicOpenStreamSync c.qconn ctx w).1 = .ok stream)
    (hwrite : (quicStreamWrite stream [p.toByte] (quicOpenStreamSync c.qconn ctx w).2).1.2 = none) :
    ((c.OpenStream ctx p w).2.streams stream).sent = [p.toByte] := by
  obtain ⟨script, _, _, hnew, _⟩ := quicOpenStreamSync_ok c.qconn ctx w stream hstream
  rw [MuxConn.OpenStream_ok c ctx p w stream hopen hstream hwrite, quicStreamWrite_sent,
    quicStreamWrite_ok _ _ _ hwrite, hnew]
  simp [QuicStream.new]

/-- Successive reads return the unread bytes in order: reading with buffer
lengths `lens` yields the first `lens.sum` unread bytes. -/
theorem StreamConn.ReadChunks_take (sc : StreamConn) (lens : List Nat) (w : World) :
    (sc.ReadChunks lens w).1 = (w.streams sc.stream).recv.take lens.sum := by
  induction lens generalizing w with
  | nil => simp [StreamConn.ReadChunks]
  | cons len lens ih =>
    have hb := quicStreamRead_bytes sc.stream len w
    simp only [StreamConn.ReadChunks, StreamConn.Read, List.sum_cons]
    rw [ih, hb.2, List.take_add]
    generalize quicStreamRead sc.stream len w = r at *
    obtain ⟨⟨bs, e⟩, w1⟩ := r
    simp at hb ⊢
    rw [hb.1]

/-- C5: purpose and payload round trip, with a stream modelled as an in-order
byte queue.  Peer A calls `OpenStream(p)` with success and then writes `d` on
the returned stream with success.  Peer B, on an open `MuxConn`, accepts a
stream whose unread bytes are exactly the bytes A's stream has sent.  Then
B's `AcceptStream` returns purpose `p` and a stream tagged `p`, and B's
subsequent reads return the bytes of `d` in order and nothing else: reads
with buffer lengths `lens` return the first `lens.sum` bytes of `d`, hence
all of `d` once the buffers add up to its length.  This holds for every
purpose `p`, control and payload included. -/
theorem MuxConn.purpose_payload_round_trip (cA cB : MuxConn) (ctxA ctxB : Context)
    (p : StreamType) (d : List Byte) (wA wB : World) (scA : StreamConn) (streamB : Nat)
    (hA : (cA.OpenStream ctxA p wA).1 = (some scA, none))
    (hd : (scA.Write d (cA.OpenStream ctxA p wA).2).1.2 = none)
    (hB : cB.closed = false)
    (hacc : (quicAcceptStream cB.qconn ctxB wB).1 = .ok streamB)
    (hqueue : ((quicAcceptStream cB.qconn ctxB wB).2.streams streamB).recv =
      ((scA.Write d (cA.OpenStream ctxA p wA).2).2.streams scA.stream).sent) :
    ∃ scB, (cB.AcceptStream ctxB wB).1 = (some scB, p, none) ∧
      scB.StreamType = p ∧
      (∀ lens : List Nat,
        (scB.ReadChunks lens (cB.AcceptStream ctxB wB).2).1 = d.take lens.sum) ∧
      (∀ lens : List Nat, d.length ≤ lens.sum →
        (scB.ReadChunks lens (cB.AcceptStream ctxB wB).2).1 = d) := by
  obtain ⟨hopenA, hstreamA, hwriteA, _⟩ := MuxConn.OpenStream_inv cA ctxA p wA scA hA
  have hsentA := MuxConn.OpenStream_sent cA ctxA p wA scA.stream hopenA hstreamA hwriteA
  have hall : ((scA.Write d (cA.OpenStream ctxA p wA).2).2.streams scA.stream).sent =
      p.toByte :: d := by
    simp only [StreamConn.Write] at hd ⊢
    rw [quicStreamWrite_sent, hsentA, quicStreamWrite_ok _ _ _ hd]
    simp
  rw [hall] at hqueue
  have hrecv : ((cB.AcceptStream ctxB wB).2.streams streamB).recv = d := by
    rw [MuxConn.AcceptStream_ok cB ctxB wB streamB p.toByte d hB hacc hqueue,
      ioReadFull_one_cons streamB _ p.toByte d hqueue]
    simp [World.setStream]
  have hchunks : ∀ lens : List Nat,
      (StreamConn.ReadChunks ⟨streamB, cB.qconn, cB.localAddr, cB.remoteAddr, p⟩ lens
        (cB.AcceptStream ctxB wB).2).1 = d.take lens.sum := by
    intro lens
    rw [StreamConn.ReadChunks_take, hrecv]
  refine ⟨⟨streamB, cB.qconn, cB.localAddr, cB.remoteAddr, p⟩, ?_, rfl, hchunks, ?_⟩
  · rw [MuxConn.AcceptStream_ok cB ctxB wB streamB p.toByte d hB hacc hqueue]
    rfl
  · intro lens hlen
    rw [hchunks lens, List.take_of_length_le hlen]

/-- Witness for C5: peer A opens a control stream and writes "PING"; peer B
accepts a stream carrying the bytes A sent, learns the purpose control, and
reads exactly "PING" into a sixteen-byte buffer. -/
theorem MuxConn.purpose_payload_round_trip_witness :
    ∃ scB,
      ((NewMuxConn 0 (exampleWorld (exampleConn (.error exampleError)
          (.ok (exampleStream (0x01 :: examplePING) none)) none)
          (.error exampleError))).AcceptStream .Background
        (exampleWorld (exampleConn (.error exampleError)
          (.ok (exampleStream (0x01 :: examplePING) none)) none) (.error exampleError))).1 =
        (some scB, StreamTypeControl, none) ∧
      (scB.ReadChunks [16]
        ((NewMuxConn 0 (exampleWorld (exampleConn (.error exampleError)
          (.ok (exampleStream (0x01 :: examplePING) none)) none)
          (.error exampleError))).AcceptStream .Background
        (exampleWorld (exampleConn (.error exampleError)
          (.ok (exampleStream (0x01 :: examplePING) none)) none) (.error exampleError))).2).1 =
        examplePING :=
  match MuxConn.purpose_payload_round_trip
      (NewMuxConn 0 (exampleWorld (exampleConn (.ok (exampleStream [] none))
        (.error exampleError) none) (.error exampleError)))
      (NewMuxConn 0 (exampleWorld (exampleConn (.error exampleError)
        (.ok (exampleStream (0x01 :: examplePING) none)) none) (.error exampleError)))
      .Background .Background StreamTypeControl examplePING
      (exampleWorld (exampleConn (.ok (exampleStream [] none)) (.error exampleError) none)
        (.error exampleError))
      (exampleWorld (exampleConn (.error exampleError)
        (.ok (exampleStream (0x01 :: examplePING) none)) none) (.error exampleError))
      ⟨0, 0, "127.0.0.1:4000", "127.0.0.1:4433", StreamTypeControl⟩ 0
      rfl rfl rfl rfl rfl with
  | ⟨scB, h1, _, _, h4⟩ => ⟨scB, h1, h4 [16] (by decide)⟩

/-! ### Failure of the purpose byte -/

/-- A `Write` does not change how often the stream was closed. -/
theorem quicStreamWrite_closeCalls (stream : Nat) (p : List Byte) (w : World) :
    ((quicStreamWrite stream p w).2.streams stream).closeCalls =
      (w.streams stream).closeCalls := by
  unfold quicStreamWrite
  dsimp only
  split
  · simp [World.setStream, World.record]
  · split <;> simp [World.setStream, World.record]

/-- On an open `MuxConn`, when the `Write` of the purpose byte fails,
`OpenStream` closes the stream and returns the wrapped error. -/
theorem MuxConn.OpenStream_write_failed (c : MuxConn) (ctx : Context) (p : StreamType)
    (w : World) (stream : Nat) (err : GoError) (hopen : c.closed = false)
    (hstream : (quicOpenStreamSync c.qconn ctx w).1 = .ok stream)
    (hwrite : (quicStreamWrite stream [p.toByte] (quicOpenStreamSync c.qconn ctx w).2).1.2 =
      some err) :
    c.OpenStream ctx p w =
      ((none, some (.errorf "write stream type" err)),
        (quicStreamClose stream
          (quicStreamWrite stream [p.toByte] (quicOpenStreamSync c.qconn ctx w).2).2).2) := by
  unfold MuxConn.OpenStream
  simp only [hopen]
  generalize quicOpenStreamSync c.qconn ctx w = r at *
  obtain ⟨r1, w1⟩ := r
  simp at hstream
  subst hstream
  simp
  generalize quicStreamWrite stream [p.toByte] w1 = r2 at *
  obtain ⟨⟨n, e⟩, w2⟩ := r2
  simp at hwrite
  subst hwrite
  simp [fmtErrorf]

/-- On an open `MuxConn`, when the read of the purpose byte fails,
`AcceptStream` closes the stream and returns the wrapped error. -/
theorem MuxConn.AcceptStream_read_failed (c : MuxConn) (ctx : Context) (w : World)
    (stream : Nat) (err : GoError) (hopen : c.closed = false)
    (hstream : (quicAcceptStream c.qconn ctx w).1 = .ok stream)
    (hread : (ioReadFull stream 1 (quicAcceptStream c.qconn ctx w).2).1.2 = some err) :
    c.AcceptStream ctx w =
      ((none, StreamType.ofByte 0, some (.errorf "read stream type" err)),
        (quicStreamClose stream (ioReadFull stream 1 (quicAcceptStream c.qconn ctx w).2).2).2) := by
  unfold MuxConn.AcceptStream
  simp only [hopen]
  generalize quicAcceptStream c.qconn ctx w = r at *
  obtain ⟨r1, w1⟩ := r
  simp at hstream
  subst hstream
  simp
  generalize ioReadFull stream 1 w1 = r2 at *
  obtain ⟨⟨bs, e⟩, w2⟩ := r2
  simp at hread
  subst hread
  simp [fmtErrorf]

/-- When `io.ReadFull` with a one-byte buffer fails, the stream held no unread
byte, the error is the stream's own end error, and the stream is unchanged. -/
theorem ioReadFull_one_failed (stream : Nat) (w : World) (err : GoError)
    (h : (ioReadFull stream 1 w).1.2 = some err) :
    (w.streams stream).recv = [] ∧ err = (w.streams stream).script.recvEnd ∧
    (ioReadFull stream 1 w).2.streams = w.streams := by
  cases hr : (w.streams stream).recv with
  | nil =>
    rw [ioReadFull_one_nil stream w hr] at h ⊢
    simp at h
    simp [h, World.record]
  | cons b rest =>
    rw [ioReadFull_one_cons stream w b rest hr] at h
    simp at h

/-- C6: no half-open stream survives a tag failure.  On an open `MuxConn`
whose `OpenStreamSync` succeeds, if the `Write` of the purpose byte fails with
`errW`, then `OpenStream` returns a nil stream and an error that wraps `errW`,
and its last library call is `Close` on the new stream.  On an open `MuxConn`
whose library `AcceptStream` succeeds, if the read of the purpose byte fails
with `errR`, then `AcceptStream` returns a nil stream and an error that wraps
`errR`, and its last library call is `Close` on the accepted stream; the read
fails exactly because the stream holds no byte, and `errR` is the stream's own
end error (`io.EOF` when the peer closed before sending a byte). -/
theorem MuxConn.tag_failure_closes_stream
    (c : MuxConn) (ctx : Context) (p : StreamType) (w : World) (stream : Nat) (errW : GoError)
    (hopen : c.closed = false)
    (hstream : (quicOpenStreamSync c.qconn ctx w).1 = .ok stream)
    (hwrite : (quicStreamWrite stream [p.toByte] (quicOpenStreamSync c.qconn ctx w).2).1.2 =
      some errW)
    (cB : MuxConn) (ctxB : Context) (wB : World) (streamB : Nat) (errR : GoError)
    (hopenB : cB.closed = false)
    (hstreamB : (quicAcceptStream cB.qconn ctxB wB).1 = .ok streamB)
    (hread : (ioReadFull streamB 1 (quicAcceptStream cB.qconn ctxB wB).2).1.2 = some errR) :
    ((c.OpenStream ctx p w).1 = (none, some (.errorf "write stream type" errW)) ∧
      (GoError.errorf "write stream type" errW).Unwrap = some errW ∧
      (c.OpenStream ctx p w).2.log =
        w.log ++ [.OpenStreamSync c.qconn ctx, .Write stream [p.toByte], .Close stream] ∧
      ((c.OpenStream ctx p w).2.streams stream).closeCalls = 1) ∧
    ((cB.AcceptStream ctxB wB).1 =
        (none, StreamType.ofByte 0, some (.errorf "read stream type" errR)) ∧
      (GoError.errorf "read stream type" errR).Unwrap = some errR ∧
      (cB.AcceptStream ctxB wB).2.log =
        wB.log ++ [.AcceptStream cB.qconn ctxB, .Read streamB 1, .Close streamB] ∧
      ((cB.AcceptStream ctxB wB).2.streams streamB).closeCalls = 1 ∧
      ((quicAcceptStream cB.qconn ctxB wB).2.streams streamB).recv = [] ∧
      errR = ((quicAcceptStream cB.qconn ctxB wB).2.streams streamB).script.recvEnd) := by
  obtain ⟨script, _, _, hnew, hlog⟩ := quicOpenStreamSync_ok c.qconn ctx w stream hstream
  obtain ⟨scriptB, _, _, hnewB, hlogB⟩ := quicAcceptStream_ok cB.qconn ctxB wB streamB hstreamB
  obtain ⟨hnil, herr, hsame⟩ := ioReadFull_one_failed streamB _ errR hread
  refine ⟨⟨?_, rfl, ?_, ?_⟩, ⟨?_, rfl, ?_, ?_, hnil, herr⟩⟩
  · rw [MuxConn.OpenStream_write_failed c ctx p w stream errW hopen hstream hwrite]
  · rw [MuxConn.OpenStream_write_failed c ctx p w stream errW hopen hstream hwrite,
      (quicStreamClose_effect _ _).2.1, quicStreamWrite_log, hlog]
    simp
  · rw [MuxConn.OpenStream_write_failed c ctx p w stream errW hopen hstream hwrite,
      (quicStreamClose_effect _ _).2.2.2, quicStreamWrite_closeCalls, hnew]
    rfl
  · rw [MuxConn.AcceptStream_read_failed cB ctxB wB streamB errR hopenB hstreamB hread]
  · rw [MuxConn.AcceptStream_read_failed cB ctxB wB streamB errR hopenB hstreamB hread,
      (quicStreamClose_effect _ _).2.1, ioReadFull_one_log, hlogB]
    simp
  · rw [MuxConn.AcceptStream_read_failed cB ctxB wB streamB errR hopenB hstreamB hread,
      (quicStreamClose_effect _ _).2.2.2, hsame, hnewB]
    rfl

/-- Witness for C6: a stream that refuses every byte written, and an accepted
stream that the peer closed before sending anything. -/
theorem MuxConn.tag_failure_closes_stream_witness :
    ((NewMuxConn 0 (exampleWorld (exampleConn (.ok (exampleStream [] (some (0, exampleError))))
        (.error exampleError) none) (.error exampleError))).OpenStream .Background StreamTypeA2A
      (exampleWorld (exampleConn (.ok (exampleStream [] (some (0, exampleError))))
        (.error exampleError) none) (.error exampleError))).2.log =
      [.OpenStreamSync 0 .Background, .Write 0 [0x02], .Close 0] ∧
    ((NewMuxConn 0 (exampleWorld (exampleConn (.error exampleError)
        (.ok (exampleStream [] none)) none) (.error exampleError))).AcceptStream .Background
      (exampleWorld (exampleConn (.error exampleError) (.ok (exampleStream [] none)) none)
        (.error exampleError))).1 =
      (none, StreamType.ofByte 0, some (.errorf "read stream type" ioEOF)) ∧
    ((NewMuxConn 0 (exampleWorld (exampleConn (.error exampleError)
        (.ok (exampleStream [] none)) none) (.error exampleError))).AcceptStream .Background
      (exampleWorld (exampleConn (.error exampleError) (.ok (exampleStream [] none)) none)
        (.error exampleError))).2.log =
      [.AcceptStream 0 .Background, .Read 0 1, .Close 0] :=
  have h := MuxConn.tag_failure_closes_stream
    (NewMuxConn 0 (exampleWorld (exampleConn (.ok (exampleStream [] (some (0, exampleError))))
      (.error exampleError) none) (.error exampleError)))
    .Background StreamTypeA2A
    (exampleWorld (exampleConn (.ok (exampleStream [] (some (0, exampleError))))
      (.error exampleError) none) (.error exampleError))
    0 exampleError rfl rfl rfl
    (NewMuxConn 0 (exampleWorld (exampleConn (.error exampleError)
      (.ok (exampleStream [] none)) none) (.error exampleError)))
    .Background
    (exampleWorld (exampleConn (.error exampleError) (.ok (exampleStream [] none)) none)
      (.error exampleError))
    0 ioEOF rfl rfl rfl
  ⟨h.1.2.2.1, h.2.1, h.2.2.2.1⟩

/-! ### Conn.Close and StreamConn.Close -/

/-- C7: `Conn.Close` ordering.  `Conn.Close` first closes the stream.  If the
stream close returns an error, `Conn.Close` returns exactly that error, the
stream `Close` is its only library call, and no connection is touched, so
`CloseWithError` is not called.  If the stream close succeeds, the library
calls are the stream `Close` followed by `CloseWithError(0, "connection
closed")` on the parent connection, and `Conn.Close` returns the answer of
that call. -/
theorem Conn.Close_ordering (c : Conn) (w : World) (err : GoError)
    (hfail : (quicStreamClose c.stream w).1 = some err)
    (c2 : Conn) (w2 : World) (hok : (quicStreamClose c2.stream w2).1 = none) :
    ((c.Close w).1 = some err ∧
      (c.Close w).2.log = w.log ++ [.Close c.stream] ∧
      (c.Close w).2.conns = w.conns) ∧
    ((c2.Close w2).2.log =
        w2.log ++ [.Close c2.stream, .CloseWithError c2.qconn 0 "connection closed"] ∧
      ((c2.Close w2).2.conns c2.qconn).closeCalls =
        (w2.conns c2.qconn).closeCalls ++ [(0, "connection closed")] ∧
      (c2.Close w2).1 =
        (w2.conns c2.qconn).script.closeScript (w2.conns c2.qconn).closeCalls.length) := by
  have h1 : c.Close w = (some err, (quicStreamClose c.stream w).2) := by
    unfold Conn.Close
    generalize quicStreamClose c.stream w = r at *
    obtain ⟨e, w1⟩ := r
    simp at hfail
    subst hfail
    rfl
  have h2 : c2.Close w2 =
      quicCloseWithError c2.qconn 0 "connection closed" (quicStreamClose c2.stream w2).2 := by
    unfold Conn.Close
    generalize quicStreamClose c2.stream w2 = r at *
    obtain ⟨e, w1⟩ := r
    simp at hok
    subst hok
    rfl
  refine ⟨⟨by rw [h1], ?_, ?_⟩, ?_⟩
  · rw [h1]
    exact (quicStreamClose_effect c.stream w).2.1
  · rw [h1]
    exact (quicStreamClose_effect c.stream w).2.2.1
  · rw [h2]
    simp [quicCloseWithError, quicStreamClose, World.record, World.setStream, World.setConn]

/-- Witness for C7: a stream whose `Close` fails, and one whose `Close`
succeeds on a connection whose `CloseWithError` fails. -/
theorem Conn.Close_ordering_witness :
    ((⟨3, 0, "a", "b"⟩ : Conn).Close
      ((exampleWorld (exampleConn (.error exampleError) (.error exampleError) none)
        (.error exampleError)).setStream 3
        (QuicStream.new { exampleStream [] none with closeResult := some exampleError }))).2.log =
      [.Close 3] ∧
    ((⟨3, 0, "a", "b"⟩ : Conn).Close
      (exampleWorld (exampleConn (.error exampleError) (.error exampleError)
        (some exampleError)) (.error exampleError))).1 = some exampleError ∧
    ((⟨3, 0, "a", "b"⟩ : Conn).Close
      (exampleWorld (exampleConn (.error exampleError) (.error exampleError)
        (some exampleError)) (.error exampleError))).2.log =
      [.Close 3, .CloseWithError 0 0 "connection closed"] :=
  have h := Conn.Close_ordering ⟨3, 0, "a", "b"⟩
    ((exampleWorld (exampleConn (.error exampleError) (.error exampleError) none)
      (.error exampleError)).setStream 3
      (QuicStream.new { exampleStream [] none with closeResult := some exampleError }))
    exampleError rfl
    ⟨3, 0, "a", "b"⟩
    (exampleWorld (exampleConn (.error exampleError) (.error exampleError)
      (some exampleError)) (.error exampleError))
    rfl
  ⟨h.1.2.1, h.2.2.2, h.2.1⟩

/-- If `AcceptStream` returns a stream, the `MuxConn` was open. -/
theorem MuxConn.AcceptStream_inv (c : MuxConn) (ctx : Context) (w : World) (sc : StreamConn)
    (t : StreamType) (h : (c.AcceptStream ctx w).1 = (some sc, t, none)) : c.closed = false := by
  cases hc : c.closed with
  | false => rfl
  | true => simp [MuxConn.AcceptStream, hc] at h

/-- On an open `MuxConn`, `OpenStream` is not rejected as closed: its first
library call is `OpenStreamSync`, and its error, if any, is not the
"connection closed" error. -/
theorem MuxConn.OpenStream_of_open (c : MuxConn) (ctx : Context) (p : StreamType) (w : World)
    (hopen : c.closed = false) :
    (∃ rest, (c.OpenStream ctx p w).2.log = w.log ++ Call.OpenStreamSync c.qconn ctx :: rest) ∧
    ∀ e, (c.OpenStream ctx p w).1.2 ≠ some (fmtErrorf "connection closed" e) := by
  have hne1 : "open stream" ≠ "connection closed" := by decide
  have hne2 : "write stream type" ≠ "connection closed" := by decide
  cases hs : (quicOpenStreamSync c.qconn ctx w).1 with
  | error err =>
    have hres : c.OpenStream ctx p w =
        ((none, some (.errorf "open stream" err)), (quicOpenStreamSync c.qconn ctx w).2) := by
      unfold MuxConn.OpenStream
      simp only [hopen]
      generalize quicOpenStreamSync c.qconn ctx w = r at *
      obtain ⟨r1, w1⟩ := r
      simp at hs
      subst hs
      simp [fmtErrorf]
    have hlog : (quicOpenStreamSync c.qconn ctx w).2.log =
        w.log ++ [.OpenStreamSync c.qconn ctx] := by
      unfold quicOpenStreamSync
      dsimp only
      split <;> simp [World.record, World.setConn, World.allocStream, World.setStream]
    rw [hres]
    refine ⟨⟨[], hlog⟩, ?_⟩
    intro e
    cases e <;> simp [fmtErrorf, hne1]
  | ok stream =>
    obtain ⟨script, _, _, _, hlog⟩ := quicOpenStreamSync_ok c.qconn ctx w stream hs
    cases hw : (quicStreamWrite stream [p.toByte] (quicOpenStreamSync c.qconn ctx w).2).1.2 with
    | none =>
      rw [MuxConn.OpenStream_ok c ctx p w stream hopen hs hw, quicStreamWrite_log, hlog]
      exact ⟨⟨[.Write stream [p.toByte]], by simp⟩, by simp⟩
    | some err =>
      rw [MuxConn.OpenStream_write_failed c ctx p w stream err hopen hs hw,
        (quicStreamClose_effect _ _).2.1, quicStreamWrite_log, hlog]
      refine ⟨⟨[.Write stream [p.toByte], .Close stream], by simp⟩, ?_⟩
      intro e
      cases e <;> simp [fmtErrorf, hne2]

/-- C8: closing a logical stream never closes its connection.  Let `sc` be a
`StreamConn` returned by `OpenStream` or `AcceptStream` of a `MuxConn` `c`, and
let `sc.Close` run in any later world.  Its only library call is `Close` on its
own stream: `CloseWithError` is not called, no connection changes, and no
other stream changes.  A `StreamConn` holds no reference to its `MuxConn`, so
`c`, with its closed flag and recorded close result, is as it was: a later
`OpenStream` on `c` is not rejected as closed but goes on to the library's
`OpenStreamSync`. -/
theorem StreamConn.Close_keeps_connection (c : MuxConn) (ctx : Context)
    (p : Latis.StreamType) (w : World) (sc : StreamConn)
    (hsc : (c.OpenStream ctx p w).1 = (some sc, none) ∨
      ∃ t, (c.AcceptStream ctx w).1 = (some sc, t, none))
    (w1 : World) (ctx2 : Context) (p2 : Latis.StreamType) :
    (sc.Close w1).2.log = w1.log ++ [.Close sc.stream] ∧
    (sc.Close w1).2.conns = w1.conns ∧
    (∀ i, i ≠ sc.stream → (sc.Close w1).2.streams i = w1.streams i) ∧
    c.closed = false ∧
    (∃ rest, (c.OpenStream ctx2 p2 (sc.Close w1).2).2.log =
      (sc.Close w1).2.log ++ Call.OpenStreamSync c.qconn ctx2 :: rest) ∧
    (∀ e, (c.OpenStream ctx2 p2 (sc.Close w1).2).1.2 ≠
      some (fmtErrorf "connection closed" e)) := by
  have hopen : c.closed = false := by
    rcases hsc with h | ⟨t, h⟩
    · exact (MuxConn.OpenStream_inv c ctx p w sc h).1
    · exact MuxConn.AcceptStream_inv c ctx w sc t h
  have hlater := MuxConn.OpenStream_of_open c ctx2 p2 (sc.Close w1).2 hopen
  refine ⟨?_, ?_, ?_, hopen, hlater.1, hlater.2⟩
  · exact (quicStreamClose_effect sc.stream w1).2.1
  · exact (quicStreamClose_effect sc.stream w1).2.2.1
  · intro i hi
    simp [StreamConn.Close, quicStreamClose, World.record, World.setStream,
      Function.update_noteq hi]

/-- Witness for C8: a stream is opened, closed, and a second stream is opened
on the same `MuxConn`; the connection is never closed. -/
theorem StreamConn.Close_keeps_connection_witness :
    ((NewMuxConn 0 (exampleWorld (exampleConn (.ok (exampleStream [] none))
        (.error exampleError) none) (.error exampleError))).OpenStream .Background StreamTypeA2A
      ((⟨0, 0, "127.0.0.1:4000", "127.0.0.1:4433", StreamTypeControl⟩ : StreamConn).Close
        ((NewMuxConn 0 (exampleWorld (exampleConn (.ok (exampleStream [] none))
            (.error exampleError) none) (.error exampleError))).OpenStream .Background
          StreamTypeControl
          (exampleWorld (exampleConn (.ok (exampleStream [] none)) (.error exampleError) none)
            (.error exampleError))).2).2).1.2 ≠
      some (fmtErrorf "connection closed" none) :=
  (StreamConn.Close_keeps_connection
    (NewMuxConn 0 (exampleWorld (exampleConn (.ok (exampleStream [] none))
      (.error exampleError) none) (.error exampleError)))
    .Background StreamTypeControl
    (exampleWorld (exampleConn (.ok (exampleStream [] none)) (.error exampleError) none)
      (.error exampleError))
    ⟨0, 0, "127.0.0.1:4000", "127.0.0.1:4433", StreamTypeControl⟩
    (Or.inl rfl)
    ((NewMuxConn 0 (exampleWorld (exampleConn (.ok (exampleStream [] none))
        (.error exampleError) none) (.error exampleError))).OpenStream .Background
      StreamTypeControl
      (exampleWorld (exampleConn (.ok (exampleStream [] none)) (.error exampleError) none)
        (.error exampleError))).2
    .Background StreamTypeA2A).2.2.2.2.2 none

/-! ### Dial and Listener.Accept -/

/-- Every `quic.DialAddr` logs exactly one call. -/
theorem quicDialAddr_log (ctx : Context) (addr : String) (tlsConfig : TLSConfig)
    (quicConfig : QuicConfig) (w : World) :
    (quicDialAddr ctx addr tlsConfig quicConfig w).2.log =
      w.log ++ [.DialAddr ctx addr tlsConfig quicConfig] := by
  unfold quicDialAddr
  dsimp only
  split <;> simp [World.record, World.allocConn, World.setConn]

/-- Every `Accept` of a listener logs exactly one call and leaves the count of
`Close` calls on every listener as it was. -/
theorem quicListenerAccept_log (ql : Nat) (ctx : Context) (w : World) :
    (quicListenerAccept ql ctx w).2.log = w.log ++ [.ListenerAccept ql ctx] ∧
    ∀ i, ((quicListenerAccept ql ctx w).2.listeners i).closeCalls =
      (w.listeners i).closeCalls := by
  unfold quicListenerAccept
  dsimp only
  constructor
  · split <;> simp [World.record, World.allocConn, World.setConn, World.setListener]
  · intro i
    by_cases hi : i = ql
    · subst hi
      split <;> simp [World.record, World.allocConn, World.setConn, World.setListener]
    · split <;> simp [World.record, World.allocConn, World.setConn, World.setListener,
        Function.update_noteq hi]

/-- Every `OpenStreamSync` logs exactly one call and leaves the listeners
alone. -/
theorem quicOpenStreamSync_log (qconn : Nat) (ctx : Context) (w : World) :
    (quicOpenStreamSync qconn ctx w).2.log = w.log ++ [.OpenStreamSync qconn ctx] ∧
    (quicOpenStreamSync qconn ctx w).2.listeners = w.listeners := by
  unfold quicOpenStreamSync
  dsimp only
  constructor <;> split <;> simp [World.record, World.allocStream, World.setStream, World.setConn]

/-- Every `AcceptStream` of the library logs exactly one call and leaves the
listeners alone. -/
theorem quicAcceptStream_log (qconn : Nat) (ctx : Context) (w : World) :
    (quicAcceptStream qconn ctx w).2.log = w.log ++ [.AcceptStream qconn ctx] ∧
    (quicAcceptStream qconn ctx w).2.listeners = w.listeners := by
  unfold quicAcceptStream
  dsimp only
  constructor <;> split <;> simp [World.record, World.allocStream, World.setStream, World.setConn]

/-- Every `CloseWithError` logs exactly one call, adds its arguments to the
connection's record, and leaves the listeners alone. -/
theorem quicCloseWithError_effect (qconn code : Nat) (reason : String) (w : World) :
    (quicCloseWithError qconn code reason w).2.log =
      w.log ++ [.CloseWithError qconn code reason] ∧
    ((quicCloseWithError qconn code reason w).2.conns qconn).closeCalls =
      (w.conns qconn).closeCalls ++ [(code, reason)] ∧
    (quicCloseWithError qconn code reason w).2.listeners = w.listeners := by
  simp [quicCloseWithError, World.record, World.setConn]

/-- When the handshake succeeds and the initial stream cannot be opened, `Dial`
closes the connection with code 1 and returns the stream error. -/
theorem Dial_open_failed (ctx : Context) (addr : String) (tlsConfig : TLSConfig)
    (quicConfig : QuicConfig) (w : World) (qconn : Nat) (err : GoError)
    (hdial : (quicDialAddr ctx addr tlsConfig quicConfig w).1 = .ok qconn)
    (hopen : (quicOpenStreamSync qconn ctx
      (quicDialAddr ctx addr tlsConfig quicConfig w).2).1 = .error err) :
    Dial ctx addr tlsConfig quicConfig w =
      ((none, some err),
        (quicCloseWithError qconn 1 "failed to open stream"
          (quicOpenStreamSync qconn ctx
            (quicDialAddr ctx addr tlsConfig quicConfig w).2).2).2) := by
  unfold Dial
  generalize quicDialAddr ctx addr tlsConfig quicConfig w = r at *
  obtain ⟨r1, w1⟩ := r
  simp at hdial hopen
  subst hdial
  simp
  generalize quicOpenStreamSync qconn ctx w1 = r2 at *
  obtain ⟨r3, w2⟩ := r2
  simp at hopen
  subst hopen
  simp

/-- When a connection is accepted and its first stream cannot be accepted,
`Listener.Accept` closes the connection with code 1 and returns the stream
error. -/
theorem Listener.Accept_stream_failed (l : Listener) (w : World) (qconn : Nat) (err : GoError)
    (hacc : (quicListenerAccept l.ql .Background w).1 = .ok qconn)
    (hstream : (quicAcceptStream qconn .Background
      (quicListenerAccept l.ql .Background w).2).1 = .error err) :
    l.Accept w =
      ((none, some err),
        (quicCloseWithError qconn 1 "failed to accept stream"
          (quicAcceptStream qconn .Background
            (quicListenerAccept l.ql .Background w).2).2).2) := by
  unfold Listener.Accept
  dsimp only
  generalize quicListenerAccept l.ql .Background w = r at *
  obtain ⟨r1, w1⟩ := r
  simp at hacc hstream
  subst hacc
  simp
  generalize quicAcceptStream qconn .Background w1 = r2 at *
  obtain ⟨r3, w2⟩ := r2
  simp at hstream
  subst hstream
  simp

/-- In every world the first library call of `Listener.Accept` is the `Accept`
of the underlying listener. -/
theorem Listener.Accept_reaches_listener (l : Listener) (w : World) :
    ∃ rest, (l.Accept w).2.log = w.log ++ Call.ListenerAccept l.ql .Background :: rest := by
  have h1 := (quicListenerAccept_log l.ql .Background w).1
  unfold Listener.Accept
  dsimp only
  generalize quicListenerAccept l.ql .Background w = r at *
  obtain ⟨r1, w1⟩ := r
  simp only at h1
  cases r1 with
  | error e => exact ⟨[], by simp [h1]⟩
  | ok qconn =>
    have h2 := (quicAcceptStream_log qconn .Background w1).1
    simp only
    generalize quicAcceptStream qconn .Background w1 = r2 at *
    obtain ⟨r3, w2⟩ := r2
    simp only at h2
    cases r3 with
    | error e =>
      exact ⟨[.AcceptStream qconn .Background,
        .CloseWithError qconn 1 "failed to accept stream"],
        by simp [(quicCloseWithError_effect qconn 1 "failed to accept stream" w2).1, h1, h2]⟩
    | ok stream => exact ⟨[.AcceptStream qconn .Background], by simp [h1, h2]⟩

/-- C9: no leaked session on initial-stream failure.  In `Dial`, if the
handshake succeeds and opening the initial stream fails with `err`, the library
calls are `DialAddr`, `OpenStreamSync` and then `CloseWithError` with code 1 on
the new connection, and `Dial` returns a nil connection with `err`.  In
`Listener.Accept`, if a connection is accepted and accepting its first stream
fails with `errL`, the library calls are the listener's `Accept`, the
connection's `AcceptStream` and then `CloseWithError` with code 1 on the new
connection, and `Accept` returns a nil connection with `errL`; the listener is
not closed, and the next `Accept` call again calls the underlying listener. -/
theorem no_leaked_session (ctx : Context) (addr : String) (tlsConfig : TLSConfig)
    (quicConfig : QuicConfig) (w : World) (qconn : Nat) (err : GoError)
    (hdial : (quicDialAddr ctx addr tlsConfig quicConfig w).1 = .ok qconn)
    (hopen : (quicOpenStreamSync qconn ctx
      (quicDialAddr ctx addr tlsConfig quicConfig w).2).1 = .error err)
    (l : Listener) (wL : World) (qconnL : Nat) (errL : GoError)
    (hacc : (quicListenerAccept l.ql .Background wL).1 = .ok qconnL)
    (hstream : (quicAcceptStream qconnL .Background
      (quicListenerAccept l.ql .Background wL).2).1 = .error errL) :
    ((Dial ctx addr tlsConfig quicConfig w).1 = (none, some err) ∧
      (Dial ctx addr tlsConfig quicConfig w).2.log =
        w.log ++ [.DialAddr ctx addr tlsConfig quicConfig, .OpenStreamSync qconn ctx,
          .CloseWithError qconn 1 "failed to open stream"] ∧
      (1 : Nat) ≠ 0) ∧
    ((l.Accept wL).1 = (none, some errL) ∧
      (l.Accept wL).2.log =
        wL.log ++ [.ListenerAccept l.ql .Background, .AcceptStream qconnL .Background,
          .CloseWithError qconnL 1 "failed to accept stream"] ∧
      ((l.Accept wL).2.listeners l.ql).closeCalls = (wL.listeners l.ql).closeCalls ∧
      ∃ rest, (l.Accept (l.Accept wL).2).2.log =
        (l.Accept wL).2.log ++ Call.ListenerAccept l.ql .Background :: rest) := by
  refine ⟨⟨?_, ?_, by decide⟩, ⟨?_, ?_, ?_, Listener.Accept_reaches_listener l _⟩⟩
  · rw [Dial_open_failed ctx addr tlsConfig quicConfig w qconn err hdial hopen]
  · rw [Dial_open_failed ctx addr tlsConfig quicConfig w qconn err hdial hopen,
      (quicCloseWithError_effect _ _ _ _).1, (quicOpenStreamSync_log _ _ _).1, quicDialAddr_log]
    simp
  · rw [Listener.Accept_stream_failed l wL qconnL errL hacc hstream]
  · rw [Listener.Accept_stream_failed l wL qconnL errL hacc hstream,
      (quicCloseWithError_effect _ _ _ _).1, (quicAcceptStream_log _ _ _).1,
      (quicListenerAccept_log _ _ _).1]
    simp
  · rw [Listener.Accept_stream_failed l wL qconnL errL hacc hstream,
      (quicCloseWithError_effect _ _ _ _).2.2, (quicAcceptStream_log _ _ _).2,
      (quicListenerAccept_log _ _ _).2]

/-- Witness for C9: the handshake succeeds and every stream attempt on the new
connection fails. -/
theorem no_leaked_session_witness :
    (Dial (.other 1) "127.0.0.1:4433" ⟨0⟩ ⟨0⟩
      (exampleWorld (exampleConn (.error exampleError) (.error exampleError) none)
        (.ok (exampleConn (.error exampleError) (.error exampleError) none)))).2.log =
      [.DialAddr (.other 1) "127.0.0.1:4433" ⟨0⟩ ⟨0⟩, .OpenStreamSync 1 (.other 1),
        .CloseWithError 1 1 "failed to open stream"] ∧
    ((⟨0, ⟨0⟩⟩ : Listener).Accept
      (exampleWorld (exampleConn (.error exampleError) (.error exampleError) none)
        (.ok (exampleConn (.error exampleError) (.error exampleError) none)))).1 =
      (none, some exampleError) ∧
    ((⟨0, ⟨0⟩⟩ : Listener).Accept
      (exampleWorld (exampleConn (.error exampleError) (.error exampleError) none)
        (.ok (exampleConn (.error exampleError) (.error exampleError) none)))).2.log =
      [.ListenerAccept 0 .Background, .AcceptStream 1 .Background,
        .CloseWithError 1 1 "failed to accept stream"] :=
  have h := no_leaked_session (.other 1) "127.0.0.1:4433" ⟨0⟩ ⟨0⟩
    (exampleWorld (exampleConn (.error exampleError) (.error exampleError) none)
      (.ok (exampleConn (.error exampleError) (.error exampleError) none)))
    1 exampleError rfl rfl
    ⟨0, ⟨0⟩⟩
    (exampleWorld (exampleConn (.error exampleError) (.error exampleError) none)
      (.ok (exampleConn (.error exampleError) (.error exampleError) none)))
    1 exampleError rfl rfl
  ⟨h.1.2.1, h.2.1, h.2.2.1⟩

/-! ### Error categories -/

/-- The first character of the text of an error made by `fmt.Errorf` is the
first character of its format. -/
theorem fmtErrorf_Error_head (pfx : String) (err : error) (ch : Char) (cs : List Char)
    (h : pfx.data = ch :: cs) : (fmtErrorf pfx err).Error.data.head? = some ch := by
  cases err with
  | none => simp [fmtErrorf, GoError.Error, String.data_append, h]
  | some cause => simp [fmtErrorf, GoError.Error, String.data_append, h]

/-- Errors made by `fmt.Errorf` from formats with different first characters
have different texts, whatever they wrap. -/
theorem fmtErrorf_Error_ne (pfx1 pfx2 : String) (e1 e2 : error) (c1 c2 : Char)
    (cs1 cs2 : List Char) (h1 : pfx1.data = c1 :: cs1) (h2 : pfx2.data = c2 :: cs2)
    (hne : c1 ≠ c2) : (fmtErrorf pfx1 e1).Error ≠ (fmtErrorf pfx2 e2).Error := by
  intro h
  have hh := congrArg (fun s => s.data.head?) h
  simp only [fmtErrorf_Error_head pfx1 e1 c1 cs1 h1, fmtErrorf_Error_head pfx2 e2 c2 cs2 h2] at hh
  exact hne (Option.some.inj hh)

/-- The texts of the three `OpenStream` errors differ pairwise, and so do the
texts of the three `AcceptStream` errors, whatever the errors wrap. -/
theorem mux_error_texts_differ (x : error) (y z : GoError) :
    ((fmtErrorf "connection closed" x).Error ≠ (GoError.errorf "open stream" y).Error ∧
      (fmtErrorf "connection closed" x).Error ≠ (GoError.errorf "write stream type" z).Error ∧
      (GoError.errorf "open stream" y).Error ≠ (GoError.errorf "write stream type" z).Error) ∧
    ((fmtErrorf "connection closed" x).Error ≠ (GoError.errorf "accept stream" y).Error ∧
      (fmtErrorf "connection closed" x).Error ≠ (GoError.errorf "read stream type" z).Error ∧
      (GoError.errorf "accept stream" y).Error ≠ (GoError.errorf "read stream type" z).Error) :=
  ⟨⟨fmtErrorf_Error_ne _ _ x (some y) 'c' 'o' _ _ rfl rfl (by decide),
    fmtErrorf_Error_ne _ _ x (some z) 'c' 'w' _ _ rfl rfl (by decide),
    fmtErrorf_Error_ne _ _ (some y) (some z) 'o' 'w' _ _ rfl rfl (by decide)⟩,
   ⟨fmtErrorf_Error_ne _ _ x (some y) 'c' 'a' _ _ rfl rfl (by decide),
    fmtErrorf_Error_ne _ _ x (some z) 'c' 'r' _ _ rfl rfl (by decide),
    fmtErrorf_Error_ne _ _ (some y) (some z) 'a' 'r' _ _ rfl rfl (by decide)⟩⟩

/-- On an open `MuxConn`, when `OpenStreamSync` fails, `OpenStream` returns the
error wrapped as "open stream" and makes no further call. -/
theorem MuxConn.OpenStream_open_failed (c : MuxConn) (ctx : Context) (p : StreamType)
    (w : World) (err : GoError) (hopen : c.closed = false)
    (hstream : (quicOpenStreamSync c.qconn ctx w).1 = .error err) :
    c.OpenStream ctx p w =
      ((none, some (.errorf "open stream" err)), (quicOpenStreamSync c.qconn ctx w).2) := by
  unfold MuxConn.OpenStream
  simp only [hopen]
  generalize quicOpenStreamSync c.qconn ctx w = r at *
  obtain ⟨r1, w1⟩ := r
  simp at hstream
  subst hstream
  simp [fmtErrorf]

/-- On an open `MuxConn`, when the library's `AcceptStream` fails,
`AcceptStream` returns the error wrapped as "accept stream" and makes no
further call. -/
theorem MuxConn.AcceptStream_accept_failed (c : MuxConn) (ctx : Context) (w : World)
    (err : GoError) (hopen : c.closed = false)
    (hstream : (quicAcceptStream c.qconn ctx w).1 = .error err) :
    c.AcceptStream ctx w =
      ((none, StreamType.ofByte 0, some (.errorf "accept stream" err)),
        (quicAcceptStream c.qconn ctx w).2) := by
  unfold MuxConn.AcceptStream
  simp only [hopen]
  generalize quicAcceptStream c.qconn ctx w = r at *
  obtain ⟨r1, w1⟩ := r
  simp at hstream
  subst hstream
  simp [fmtErrorf]

/-- When the handshake fails, `Dial` returns the library's error as it is. -/
theorem Dial_handshake_failed (ctx : Context) (addr : String) (tlsConfig : TLSConfig)
    (quicConfig : QuicConfig) (w : World) (err : GoError)
    (hdial : (quicDialAddr ctx addr tlsConfig quicConfig w).1 = .error err) :
    Dial ctx addr tlsConfig quicConfig w =
      ((none, some err), (quicDialAddr ctx addr tlsConfig quicConfig w).2) := by
  unfold Dial
  generalize quicDialAddr ctx addr tlsConfig quicConfig w = r at *
  obtain ⟨r1, w1⟩ := r
  simp at hdial
  subst hdial
  simp

/-- Counterexample for C10: the deadline of the context passes during the
handshake in one world and during the opening of the initial stream in the
other; `Dial` returns the same pair, a nil connection and
`context.DeadlineExceeded`, in both. -/
theorem Dial_errors_indistinguishable :
    (quicDialAddr (.other 1) "127.0.0.1:4433" ⟨0⟩ ⟨0⟩
      (exampleWorld (exampleConn (.error exampleError) (.error exampleError) none)
        (.error contextDeadlineExceeded))).1 = .error contextDeadlineExceeded ∧
    (quicDialAddr (.other 1) "127.0.0.1:4433" ⟨0⟩ ⟨0⟩
      (exampleWorld (exampleConn (.error exampleError) (.error exampleError) none)
        (.ok (exampleConn (.error contextDeadlineExceeded) (.error exampleError) none)))).1 =
      .ok 1 ∧
    (quicOpenStreamSync 1 (.other 1)
      (quicDialAddr (.other 1) "127.0.0.1:4433" ⟨0⟩ ⟨0⟩
        (exampleWorld (exampleConn (.error exampleError) (.error exampleError) none)
          (.ok (exampleConn (.error contextDeadlineExceeded) (.error exampleError)
            none)))).2).1 = .error contextDeadlineExceeded ∧
    (Dial (.other 1) "127.0.0.1:4433" ⟨0⟩ ⟨0⟩
      (exampleWorld (exampleConn (.error exampleError) (.error exampleError) none)
        (.error contextDeadlineExceeded))).1 =
      (none, some contextDeadlineExceeded) ∧
    (Dial (.other 1) "127.0.0.1:4433" ⟨0⟩ ⟨0⟩
      (exampleWorld (exampleConn (.error exampleError) (.error exampleError) none)
        (.ok (exampleConn (.error contextDeadlineExceeded) (.error exampleError) none)))).1 =
      (none, some contextDeadlineExceeded) :=
  ⟨rfl, rfl, rfl, rfl, rfl⟩

/-- C10, amended: the multiplexer's errors tell their category, `Dial` returns
the library's error as it is.  Each failure is taken in a world of its own.
For `OpenStream`, the error of a closed `MuxConn`, of a failed
`OpenStreamSync` and of a failed purpose write are "connection closed", "open
stream" and "write stream type" wrappings; for `AcceptStream`, the error of a
closed `MuxConn`, of a failed library `AcceptStream` and of a failed purpose
read are "connection closed", "accept stream" and "read stream type"
wrappings.  Within each method the three errors differ pairwise, as values and
in their texts, whatever the underlying causes are, the same cause included.
`Dial` returns the handshake error, respectively the stream-open error,
unwrapped. -/
theorem errors_by_category (ctx : Context) (p : StreamType)
    (cC : MuxConn) (wC : World) (hC : cC.closed = true)
    (cO : MuxConn) (wO : World) (errO : GoError) (hO : cO.closed = false)
    (hOo : (quicOpenStreamSync cO.qconn ctx wO).1 = .error errO)
    (cW : MuxConn) (wW : World) (streamW : Nat) (errW : GoError) (hW : cW.closed = false)
    (hWo : (quicOpenStreamSync cW.qconn ctx wW).1 = .ok streamW)
    (hWw : (quicStreamWrite streamW [p.toByte] (quicOpenStreamSync cW.qconn ctx wW).2).1.2 =
      some errW)
    (cD : MuxConn) (wD : World) (hD : cD.closed = true)
    (cA : MuxConn) (wA : World) (errA : GoError) (hA : cA.closed = false)
    (hAa : (quicAcceptStream cA.qconn ctx wA).1 = .error errA)
    (cR : MuxConn) (wR : World) (streamR : Nat) (errR : GoError) (hR : cR.closed = false)
    (hRa : (quicAcceptStream cR.qconn ctx wR).1 = .ok streamR)
    (hRr : (ioReadFull streamR 1 (quicAcceptStream cR.qconn ctx wR).2).1.2 = some errR)
    (addr : String) (tlsConfig : TLSConfig) (quicConfig : QuicConfig)
    (wH : World) (errH : GoError)
    (hH : (quicDialAddr ctx addr tlsConfig quicConfig wH).1 = .error errH)
    (wS : World) (qconn : Nat) (errS : GoError)
    (hS : (quicDialAddr ctx addr tlsConfig quicConfig wS).1 = .ok qconn)
    (hSo : (quicOpenStreamSync qconn ctx
      (quicDialAddr ctx addr tlsConfig quicConfig wS).2).1 = .error errS) :
    ((cC.OpenStream ctx p wC).1 = (none, some (fmtErrorf "connection closed" cC.closeErr)) ∧
      (cO.OpenStream ctx p wO).1 = (none, some (.errorf "open stream" errO)) ∧
      (cW.OpenStream ctx p wW).1 = (none, some (.errorf "write stream type" errW)) ∧
      fmtErrorf "connection closed" cC.closeErr ≠ .errorf "open stream" errO ∧
      fmtErrorf "connection closed" cC.closeErr ≠ .errorf "write stream type" errW ∧
      GoError.errorf "open stream" errO ≠ .errorf "write stream type" errW ∧
      (fmtErrorf "connection closed" cC.closeErr).Error ≠
        (GoError.errorf "open stream" errO).Error ∧
      (fmtErrorf "connection closed" cC.closeErr).Error ≠
        (GoError.errorf "write stream type" errW).Error ∧
      (GoError.errorf "open stream" errO).Error ≠
        (GoError.errorf "write stream type" errW).Error) ∧
    ((cD.AcceptStream ctx wD).1 =
        (none, StreamType.ofByte 0, some (fmtErrorf "connection closed" cD.closeErr)) ∧
      (cA.AcceptStream ctx wA).1 =
        (none, StreamType.ofByte 0, some (.errorf "accept stream" errA)) ∧
      (cR.AcceptStream ctx wR).1 =
        (none, StreamType.ofByte 0, some (.errorf "read stream type" errR)) ∧
      fmtErrorf "connection closed" cD.closeErr ≠ .errorf "accept stream" errA ∧
      fmtErrorf "connection closed" cD.closeErr ≠ .errorf "read stream type" errR ∧
      GoError.errorf "accept stream" errA ≠ .errorf "read stream type" errR ∧
      (fmtErrorf "connection closed" cD.closeErr).Error ≠
        (GoError.errorf "accept stream" errA).Error ∧
      (fmtErrorf "connection closed" cD.closeErr).Error ≠
        (GoError.errorf "read stream type" errR).Error ∧
      (GoError.errorf "accept stream" errA).Error ≠
        (GoError.errorf "read stream type" errR).Error) ∧
    ((Dial ctx addr tlsConfig quicConfig wH).1 = (none, some errH) ∧
      (Dial ctx addr tlsConfig quicConfig wS).1 = (none, some errS)) := by
  have ho1 : "connection closed" ≠ "open stream" := by decide
  have ho2 : "connection closed" ≠ "write stream type" := by decide
  have ho3 : "open stream" ≠ "write stream type" := by decide
  have ha1 : "connection closed" ≠ "accept stream" := by decide
  have ha2 : "connection closed" ≠ "read stream type" := by decide
  have ha3 : "accept stream" ≠ "read stream type" := by decide
  have htO := (mux_error_texts_differ cC.closeErr errO errW).1
  have htA := (mux_error_texts_differ cD.closeErr errA errR).2
  refine ⟨⟨?_, ?_, ?_, ?_, ?_, ?_, htO.1, htO.2.1, htO.2.2⟩,
    ⟨?_, ?_, ?_, ?_, ?_, ?_, htA.1, htA.2.1, htA.2.2⟩, ⟨?_, ?_⟩⟩
  · simp [MuxConn.OpenStream, hC]
  · rw [MuxConn.OpenStream_open_failed cO ctx p wO errO hO hOo]
  · rw [MuxConn.OpenStream_write_failed cW ctx p wW streamW errW hW hWo hWw]
  · cases cC.closeErr <;> simp [fmtErrorf, ho1]
  · cases cC.closeErr <;> simp [fmtErrorf, ho2]
  · simp [ho3]
  · simp [MuxConn.AcceptStream, hD]
  · rw [MuxConn.AcceptStream_accept_failed cA ctx wA errA hA hAa]
  · rw [MuxConn.AcceptStream_read_failed cR ctx wR streamR errR hR hRa hRr]
  · cases cD.closeErr <;> simp [fmtErrorf, ha1]
  · cases cD.closeErr <;> simp [fmtErrorf, ha2]
  · simp [ha3]
  · rw [Dial_handshake_failed ctx addr tlsConfig quicConfig wH errH hH]
  · rw [Dial_open_failed ctx addr tlsConfig quicConfig wS qconn errS hS hSo]

/-- Witness for C10, amended: every failing step fails with the same cause,
`context.DeadlineExceeded`.  `OpenStreamSync` fails in a world where the
library's `AcceptStream` would succeed, the purpose write fails on a
connection on which no stream can be accepted, and the library's
`AcceptStream` fails in a world where `OpenStreamSync` would succeed.  The
errors of each method still differ, and `Dial` returns the cause itself. -/
theorem errors_by_category_witness :
    (((exampleMux.Close (exampleWorld (exampleConn (.error exampleError)
        (.error exampleError) (some contextDeadlineExceeded))
        (.error exampleError))).2.1.OpenStream (.other 1) StreamTypeControl noStreamWorld).1 =
      (none, some (.errorf "connection closed" contextDeadlineExceeded))) ∧
    (exampleMux.OpenStream (.other 1) StreamTypeControl
      (exampleWorld (exampleConn (.error contextDeadlineExceeded)
        (.ok (exampleStream [0x01] none)) none) (.error exampleError))).1 =
      (none, some (.errorf "open stream" contextDeadlineExceeded)) ∧
    (exampleMux.OpenStream (.other 1) StreamTypeControl
      (exampleWorld (exampleConn (.ok (exampleStream [] (some (0, contextDeadlineExceeded))))
        (.error exampleError) none) (.error exampleError))).1 =
      (none, some (.errorf "write stream type" contextDeadlineExceeded)) ∧
    (GoError.errorf "open stream" contextDeadlineExceeded).Error ≠
      (GoError.errorf "write stream type" contextDeadlineExceeded).Error ∧
    (exampleMux.AcceptStream (.other 1)
      (exampleWorld (exampleConn (.ok (exampleStream [] none))
        (.error contextDeadlineExceeded) none) (.error exampleError))).1 =
      (none, StreamType.ofByte 0, some (.errorf "accept stream" contextDeadlineExceeded)) ∧
    (exampleMux.AcceptStream (.other 1)
      (exampleWorld (exampleConn (.error exampleError)
        (.ok { exampleStream [] none with recvEnd := contextDeadlineExceeded }) none)
        (.error exampleError))).1 =
      (none, StreamType.ofByte 0, some (.errorf "read stream type" contextDeadlineExceeded)) ∧
    (Dial (.other 1) "127.0.0.1:4433" ⟨0⟩ ⟨0⟩
      (exampleWorld (exampleConn (.error exampleError) (.error exampleError) none)
        (.error contextDeadlineExceeded))).1 = (none, some contextDeadlineExceeded) :=
  have h := errors_by_category (.other 1) StreamTypeControl
    (exampleMux.Close (exampleWorld (exampleConn (.error exampleError)
      (.error exampleError) (some contextDeadlineExceeded)) (.error exampleError))).2.1
    noStreamWorld rfl
    exampleMux
    (exampleWorld (exampleConn (.error contextDeadlineExceeded)
      (.ok (exampleStream [0x01] none)) none) (.error exampleError))
    contextDeadlineExceeded rfl rfl
    exampleMux
    (exampleWorld (exampleConn (.ok (exampleStream [] (some (0, contextDeadlineExceeded))))
      (.error exampleError) none) (.error exampleError))
    0 contextDeadlineExceeded rfl rfl rfl
    (exampleMux.Close (exampleWorld (exampleConn (.error exampleError)
      (.error exampleError) (some contextDeadlineExceeded)) (.error exampleError))).2.1
    noStreamWorld rfl
    exampleMux
    (exampleWorld (exampleConn (.ok (exampleStream [] none))
      (.error contextDeadlineExceeded) none) (.error exampleError))
    contextDeadlineExceeded rfl rfl
    exampleMux
    (exampleWorld (exampleConn (.error exampleError)
      (.ok { exampleStream [] none with recvEnd := contextDeadlineExceeded }) none)
      (.error exampleError))
    0 contextDeadlineExceeded rfl rfl rfl
    "127.0.0.1:4433" ⟨0⟩ ⟨0⟩
    (exampleWorld (exampleConn (.error exampleError) (.error exampleError) none)
      (.error contextDeadlineExceeded))
    contextDeadlineExceeded rfl
    (exampleWorld (exampleConn (.error exampleError) (.error exampleError) none)
      (.ok (exampleConn (.error contextDeadlineExceeded) (.error exampleError) none)))
    1 contextDeadlineExceeded rfl rfl
  ⟨h.1.1, h.1.2.1, h.1.2.2.1, h.1.2.2.2.2.2.2.2.2, h.2.1.2.1, h.2.1.2.2.1, h.2.2.1⟩

/-! ### Purpose tag encoding -/

/-- The method `StreamType.String` by cases on the byte. -/
theorem StreamType.String_cases (b : Byte) :
    (StreamType.ofByte b).String =
      if b = 1 then "control" else if b = 2 then "a2a" else "unknown" := by
  by_cases h1 : b = 1
  · subst h1; rfl
  · by_cases h2 : b = 2
    · subst h2; rfl
    · have e1 : StreamType.ofByte b ≠ StreamTypeControl := by
        intro h; exact h1 (congrArg StreamType.val h)
      have e2 : StreamType.ofByte b ≠ StreamTypeA2A := by
        intro h; exact h2 (congrArg StreamType.val h)
      simp [StreamType.String, e1, e2, h1, h2]

/-- C11: purpose tag encoding.  The control purpose is the byte 0x01 and the
a2a (payload) purpose is the byte 0x02.  `StreamType.String` returns "control"
exactly for 0x01, "a2a" exactly for 0x02, and "unknown" exactly for the other
byte values, of which there are 254; the two recognised purposes have
different names. -/
theorem purpose_tag_encoding :
    StreamTypeControl.toByte = 0x01 ∧
    StreamTypeA2A.toByte = 0x02 ∧
    StreamTypeControl.String = "control" ∧
    StreamTypeA2A.String = "a2a" ∧
    StreamTypeControl.String ≠ StreamTypeA2A.String ∧
    (∀ b : Byte, (StreamType.ofByte b).String = "control" ↔ b = 0x01) ∧
    (∀ b : Byte, (StreamType.ofByte b).String = "a2a" ↔ b = 0x02) ∧
    (∀ b : Byte, (StreamType.ofByte b).String = "unknown" ↔ (b ≠ 0x01 ∧ b ≠ 0x02)) ∧
    (Finset.univ.filter (fun b : Byte => (StreamType.ofByte b).String = "unknown")).card = 254 := by
  have hcu : "control" ≠ "unknown" := by decide
  have hca : "control" ≠ "a2a" := by decide
  have hau : "a2a" ≠ "unknown" := by decide
  have h12 : (1 : Byte) ≠ 2 := by decide
  refine ⟨rfl, rfl, rfl, rfl, by decide, ?_, ?_, ?_, ?_⟩
  · intro b
    rw [StreamType.String_cases]
    by_cases h1 : b = 1
    · simp [h1]
    · by_cases h2 : b = 2
      · simp [h2, hca.symm]
      · simp [h1, h2, hcu.symm]
  · intro b
    rw [StreamType.String_cases]
    by_cases h1 : b = 1
    · simp [h1, hca, h12]
    · by_cases h2 : b = 2
      · simp [h2]
      · simp [h1, h2, hau.symm]
  · intro b
    rw [StreamType.String_cases]
    by_cases h1 : b = 1
    · simp [h1, hcu]
    · by_cases h2 : b = 2
      · simp [h2, hau]
      · simp [h1, h2]
  · have : (Finset.univ.filter (fun b : Byte => (StreamType.ofByte b).String = "unknown")) =
        (Finset.univ.erase (1 : Byte)).erase 2 := by
      ext b
      rw [Finset.mem_filter, StreamType.String_cases]
      by_cases h1 : b = 1
      · simp [h1, hcu]
      · by_cases h2 : b = 2
        · simp [h2, hau]
        · simp [h1, h2]
    rw [this, Finset.card_erase_of_mem, Finset.card_erase_of_mem, Finset.card_univ,
      Fintype.card_fin]
    · exact Finset.mem_univ _
    · exact Finset.mem_erase.mpr ⟨h12.symm, Finset.mem_univ _⟩

/-! ### Stream-level failures -/

/-- An `OpenStreamSync` leaves the record of `CloseWithError` calls of every
connection as it was. -/
theorem quicOpenStreamSync_closeCalls (qconn : Nat) (ctx : Context) (w : World) (q : Nat) :
    ((quicOpenStreamSync qconn ctx w).2.conns q).closeCalls = (w.conns q).closeCalls := by
  unfold quicOpenStreamSync
  dsimp only
  by_cases hq : q = qconn
  · subst hq
    split <;> simp [World.record, World.allocStream, World.setStream, World.setConn]
  · split <;> simp [World.record, World.allocStream, World.setStream, World.setConn,
      Function.update_noteq hq]

/-- An `AcceptStream` of the library leaves the record of `CloseWithError` calls
of every connection as it was. -/
theorem quicAcceptStream_closeCalls (qconn : Nat) (ctx : Context) (w : World) (q : Nat) :
    ((quicAcceptStream qconn ctx w).2.conns q).closeCalls = (w.conns q).closeCalls := by
  unfold quicAcceptStream
  dsimp only
  by_cases hq : q = qconn
  · subst hq
    split <;> simp [World.record, World.allocStream, World.setStream, World.setConn]
  · split <;> simp [World.record, World.allocStream, World.setStream, World.setConn,
      Function.update_noteq hq]

/-- The call `io.ReadFull` with a one-byte buffer never touches the heap of
connections. -/
theorem ioReadFull_one_conns (stream : Nat) (w : World) :
    (ioReadFull stream 1 w).2.conns = w.conns := by
  cases h : (w.streams stream).recv with
  | nil => simp [ioReadFull_one_nil stream w h, World.record]
  | cons b rest => simp [ioReadFull_one_cons stream w b rest h, World.record, World.setStream]

/-- On an open `MuxConn`, `AcceptStream` is not rejected as closed: its first
library call is the library's `AcceptStream`, and its error, if any, is not
the "connection closed" error. -/
theorem MuxConn.AcceptStream_of_open (c : MuxConn) (ctx : Context) (w : World)
    (hopen : c.closed = false) :
    (∃ rest, (c.AcceptStream ctx w).2.log = w.log ++ Call.AcceptStream c.qconn ctx :: rest) ∧
    ∀ e, (c.AcceptStream ctx w).1.2.2 ≠ some (fmtErrorf "connection closed" e) := by
  have hne1 : "accept stream" ≠ "connection closed" := by decide
  have hne2 : "read stream type" ≠ "connection closed" := by decide
  have hlog := (quicAcceptStream_log c.qconn ctx w).1
  cases hs : (quicAcceptStream c.qconn ctx w).1 with
  | error err =>
    rw [MuxConn.AcceptStream_accept_failed c ctx w err hopen hs, hlog]
    refine ⟨⟨[], rfl⟩, ?_⟩
    intro e
    cases e <;> simp [fmtErrorf, hne1]
  | ok stream =>
    cases hr : ((quicAcceptStream c.qconn ctx w).2.streams stream).recv with
    | cons b rest =>
      rw [MuxConn.AcceptStream_ok c ctx w stream b rest hopen hs hr, ioReadFull_one_log, hlog]
      exact ⟨⟨[.Read stream 1], by simp⟩, by simp⟩
    | nil =>
      have hread : (ioReadFull stream 1 (quicAcceptStream c.qconn ctx w).2).1.2 =
          some ((quicAcceptStream c.qconn ctx w).2.streams stream).script.recvEnd := by
        rw [ioReadFull_one_nil stream _ hr]
      rw [MuxConn.AcceptStream_read_failed c ctx w stream _ hopen hs hread,
        (quicStreamClose_effect _ _).2.1, ioReadFull_one_log, hlog]
      refine ⟨⟨[.Read stream 1, .Close stream], by simp⟩, ?_⟩
      intro e
      cases e <;> simp [fmtErrorf, hne2]

/-- C12: stream-level failures do not close the connection.  Let `c` be an open
`MuxConn`, and let `OpenStream` fail at `OpenStreamSync` (world `wO`) or at the
purpose write (world `wW`), and `AcceptStream` fail at the library's
`AcceptStream` (world `wA`) or at the purpose read (world `wR`).  In each case
the `MuxConn` after the call is `c` itself, closed flag and recorded close
result included; the library calls made are the ones listed, none of them
`CloseWithError`, and no connection's record of `CloseWithError` calls
changes; and in the world the failure leaves behind, a further `OpenStream`
or `AcceptStream` on `c` is not rejected as closed but goes on to the
library. -/
theorem stream_failure_keeps_connection (c : MuxConn) (ctx ctx2 : Context)
    (p p2 : StreamType) (hopen : c.closed = false)
    (wO : World) (errO : GoError)
    (hO : (quicOpenStreamSync c.qconn ctx wO).1 = .error errO)
    (wW : World) (streamW : Nat) (errW : GoError)
    (hWo : (quicOpenStreamSync c.qconn ctx wW).1 = .ok streamW)
    (hW : (quicStreamWrite streamW [p.toByte] (quicOpenStreamSync c.qconn ctx wW).2).1.2 =
      some errW)
    (wA : World) (errA : GoError)
    (hA : (quicAcceptStream c.qconn ctx wA).1 = .error errA)
    (wR : World) (streamR : Nat) (errR : GoError)
    (hRa : (quicAcceptStream c.qconn ctx wR).1 = .ok streamR)
    (hR : (ioReadFull streamR 1 (quicAcceptStream c.qconn ctx wR).2).1.2 = some errR) :
    ((c.step wO (.OpenStream ctx p)).2.1 = c ∧
      (c.step wW (.OpenStream ctx p)).2.1 = c ∧
      (c.step wA (.AcceptStream ctx)).2.1 = c ∧
      (c.step wR (.AcceptStream ctx)).2.1 = c) ∧
    ((c.OpenStream ctx p wO).2.log = wO.log ++ [.OpenStreamSync c.qconn ctx] ∧
      (c.OpenStream ctx p wW).2.log =
        wW.log ++ [.OpenStreamSync c.qconn ctx, .Write streamW [p.toByte], .Close streamW] ∧
      (c.AcceptStream ctx wA).2.log = wA.log ++ [.AcceptStream c.qconn ctx] ∧
      (c.AcceptStream ctx wR).2.log =
        wR.log ++ [.AcceptStream c.qconn ctx, .Read streamR 1, .Close streamR]) ∧
    ((∀ q, ((c.OpenStream ctx p wO).2.conns q).closeCalls = (wO.conns q).closeCalls) ∧
      (∀ q, ((c.OpenStream ctx p wW).2.conns q).closeCalls = (wW.conns q).closeCalls) ∧
      (∀ q, ((c.AcceptStream ctx wA).2.conns q).closeCalls = (wA.conns q).closeCalls) ∧
      (∀ q, ((c.AcceptStream ctx wR).2.conns q).closeCalls = (wR.conns q).closeCalls)) ∧
    (∀ w1 ∈ [(c.OpenStream ctx p wO).2, (c.OpenStream ctx p wW).2,
        (c.AcceptStream ctx wA).2, (c.AcceptStream ctx wR).2],
      (∃ rest, (c.OpenStream ctx2 p2 w1).2.log =
        w1.log ++ Call.OpenStreamSync c.qconn ctx2 :: rest) ∧
      (∀ e, (c.OpenStream ctx2 p2 w1).1.2 ≠ some (fmtErrorf "connection closed" e)) ∧
      (∃ rest, (c.AcceptStream ctx2 w1).2.log =
        w1.log ++ Call.AcceptStream c.qconn ctx2 :: rest) ∧
      (∀ e, (c.AcceptStream ctx2 w1).1.2.2 ≠ some (fmtErrorf "connection closed" e))) := by
  have eO := MuxConn.OpenStream_open_failed c ctx p wO errO hopen hO
  have eW := MuxConn.OpenStream_write_failed c ctx p wW streamW errW hopen hWo hW
  have eA := MuxConn.AcceptStream_accept_failed c ctx wA errA hopen hA
  have eR := MuxConn.AcceptStream_read_failed c ctx wR streamR errR hopen hRa hR
  refine ⟨⟨?_, ?_, ?_, ?_⟩, ⟨?_, ?_, ?_, ?_⟩, ⟨?_, ?_, ?_, ?_⟩, ?_⟩
  · simp [MuxConn.step]
  · simp [MuxConn.step]
  · simp [MuxConn.step]
  · simp [MuxConn.step]
  · rw [eO, (quicOpenStreamSync_log _ _ _).1]
  · rw [eW, (quicStreamClose_effect _ _).2.1, quicStreamWrite_log,
      (quicOpenStreamSync_log _ _ _).1]
    simp
  · rw [eA, (quicAcceptStream_log _ _ _).1]
  · rw [eR, (quicStreamClose_effect _ _).2.1, ioReadFull_one_log,
      (quicAcceptStream_log _ _ _).1]
    simp
  · intro q
    rw [eO, quicOpenStreamSync_closeCalls]
  · intro q
    rw [eW, (quicStreamClose_effect _ _).2.2.1, quicStreamWrite_conns,
      quicOpenStreamSync_closeCalls]
  · intro q
    rw [eA, quicAcceptStream_closeCalls]
  · intro q
    rw [eR, (quicStreamClose_effect _ _).2.2.1, ioReadFull_one_conns,
      quicAcceptStream_closeCalls]
  · intro w1 _
    exact ⟨(MuxConn.OpenStream_of_open c ctx2 p2 w1 hopen).1,
      (MuxConn.OpenStream_of_open c ctx2 p2 w1 hopen).2,
      (MuxConn.AcceptStream_of_open c ctx2 w1 hopen).1,
      (MuxConn.AcceptStream_of_open c ctx2 w1 hopen).2⟩

/-- Witness for C12: the same open `MuxConn` in a world where no stream can be
opened or accepted and in a world where the purpose byte can be neither
written nor read. -/
theorem stream_failure_keeps_connection_witness :
    (exampleMux.OpenStream .Background StreamTypeControl deadStreamWorld).2.log =
      [.OpenStreamSync 0 .Background, .Write 0 [0x01], .Close 0] ∧
    (exampleMux.AcceptStream .Background deadStreamWorld).2.log =
      [.AcceptStream 0 .Background, .Read 0 1, .Close 0] ∧
    (∃ rest,
      (exampleMux.OpenStream (.other 2) StreamTypeA2A
        (exampleMux.AcceptStream .Background deadStreamWorld).2).2.log =
        (exampleMux.AcceptStream .Background deadStreamWorld).2.log ++
          Call.OpenStreamSync 0 (.other 2) :: rest) :=
  have h := stream_failure_keeps_connection exampleMux .Background (.other 2)
    StreamTypeControl StreamTypeA2A rfl
    noStreamWorld exampleError rfl
    deadStreamWorld 0 exampleError rfl rfl
    noStreamWorld exampleError rfl
    deadStreamWorld 0 ioEOF rfl rfl
  ⟨h.2.1.2.1, h.2.1.2.2.2,
    (h.2.2.2 (exampleMux.AcceptStream .Background deadStreamWorld).2 (by simp)).1⟩

/-! ### Deadlines -/

/-- The library's `SetReadDeadline` logs its call, leaves the connections and
all other streams alone, and on its own stream changes nothing but the read
deadline, which is `t` when the call succeeds. -/
theorem quicSetReadDeadline_effect (stream : Nat) (t : Time) (w : World) :
    (quicSetReadDeadline stream t w).2.log = w.log ++ [.SetReadDeadline stream t] ∧
    (quicSetReadDeadline stream t w).2.conns = w.conns ∧
    (∀ i, i ≠ stream → (quicSetReadDeadline stream t w).2.streams i = w.streams i) ∧
    ∃ rd, (quicSetReadDeadline stream t w).2.streams stream =
        { w.streams stream with readDeadline := rd } ∧
      ((quicSetReadDeadline stream t w).1 = none → rd = some t) := by
  unfold quicSetReadDeadline
  dsimp only
  split
  · next e he =>
    refine ⟨by simp [World.record], by simp [World.record], ?_, ?_⟩
    · intro i _
      simp [World.record]
    · exact ⟨(w.streams stream).readDeadline, by simp [World.record], by simp⟩
  · next he =>
    refine ⟨by simp [World.record, World.setStream],
      by simp [World.record, World.setStream], ?_, ?_⟩
    · intro i hi
      simp [World.record, World.setStream, Function.update_noteq hi]
    · exact ⟨some t, by simp [World.record, World.setStream], by simp⟩

/-- The library's `SetWriteDeadline` logs its call, leaves the connections and
all other streams alone, and on its own stream changes nothing but the write
deadline, which is `t` when the call succeeds. -/
theorem quicSetWriteDeadline_effect (stream : Nat) (t : Time) (w : World) :
    (quicSetWriteDeadline stream t w).2.log = w.log ++ [.SetWriteDeadline stream t] ∧
    (quicSetWriteDeadline stream t w).2.conns = w.conns ∧
    (∀ i, i ≠ stream → (quicSetWriteDeadline stream t w).2.streams i = w.streams i) ∧
    ∃ wd, (quicSetWriteDeadline stream t w).2.streams stream =
        { w.streams stream with writeDeadline := wd } ∧
      ((quicSetWriteDeadline stream t w).1 = none → wd = some t) := by
  unfold quicSetWriteDeadline
  dsimp only
  split
  · next e he =>
    refine ⟨by simp [World.record], by simp [World.record], ?_, ?_⟩
    · intro i _
      simp [World.record]
    · exact ⟨(w.streams stream).writeDeadline, by simp [World.record], by simp⟩
  · next he =>
    refine ⟨by simp [World.record, World.setStream],
      by simp [World.record, World.setStream], ?_, ?_⟩
    · intro i hi
      simp [World.record, World.setStream, Function.update_noteq hi]
    · exact ⟨some t, by simp [World.record, World.setStream], by simp⟩

/-- Setting the read deadline and then, if that succeeded, the write deadline:
when the result is nil, both deadlines of the stream are `t`. -/
theorem setBothDeadlines_ok (stream : Nat) (t : Time) (w : World)
    (h : (match quicSetReadDeadline stream t w with
      | (some err, w1) => (some err, w1)
      | (none, w1) => quicSetWriteDeadline stream t w1).1 = none) :
    ((match quicSetReadDeadline stream t w with
      | (some err, w1) => (some err, w1)
      | (none, w1) => quicSetWriteDeadline stream t w1).2.streams stream).readDeadline =
        some t ∧
    ((match quicSetReadDeadline stream t w with
      | (some err, w1) => (some err, w1)
      | (none, w1) => quicSetWriteDeadline stream t w1).2.streams stream).writeDeadline =
        some t := by
  obtain ⟨_, _, _, rd, hrd, hrt⟩ := quicSetReadDeadline_effect stream t w
  generalize quicSetReadDeadline stream t w = r at *
  obtain ⟨e, w1⟩ := r
  cases e with
  | some err => simp at h
  | none =>
    simp only at h hrd hrt ⊢
    obtain ⟨_, _, _, wd, hwd, hwt⟩ := quicSetWriteDeadline_effect stream t w1
    rw [hwd, hwt h, hrd, hrt trivial]
    exact ⟨rfl, rfl⟩

/-- C13: deadline setters on `Conn` and `StreamConn`.  `SetReadDeadline(t)`
makes one library call, `SetReadDeadline` on its stream, and changes nothing
but that stream's read deadline (to `t`, when the call succeeds): the write
deadline and every other field, every other stream and every connection stay
as they were.  `SetWriteDeadline(t)` does the same for the write deadline.
Whenever `SetDeadline(t)` returns nil, both the read and the write deadline of
the stream are `t`. -/
theorem deadline_setters (c : Conn) (sc : StreamConn) (t : Time) (w : World)
    (wD : World) (hD : (c.SetDeadline t wD).1 = none)
    (wS : World) (hS : (sc.SetDeadline t wS).1 = none) :
    ((c.SetReadDeadline t w).2.log = w.log ++ [.SetReadDeadline c.stream t] ∧
      (c.SetReadDeadline t w).2.conns = w.conns ∧
      (∀ i, i ≠ c.stream → (c.SetReadDeadline t w).2.streams i = w.streams i) ∧
      ∃ rd, (c.SetReadDeadline t w).2.streams c.stream =
          { w.streams c.stream with readDeadline := rd } ∧
        ((c.SetReadDeadline t w).1 = none → rd = some t)) ∧
    ((c.SetWriteDeadline t w).2.log = w.log ++ [.SetWriteDeadline c.stream t] ∧
      (c.SetWriteDeadline t w).2.conns = w.conns ∧
      (∀ i, i ≠ c.stream → (c.SetWriteDeadline t w).2.streams i = w.streams i) ∧
      ∃ wd, (c.SetWriteDeadline t w).2.streams c.stream =
          { w.streams c.stream with writeDeadline := wd } ∧
        ((c.SetWriteDeadline t w).1 = none → wd = some t)) ∧
    ((sc.SetReadDeadline t w).2.log = w.log ++ [.SetReadDeadline sc.stream t] ∧
      (sc.SetReadDeadline t w).2.conns = w.conns ∧
      (∀ i, i ≠ sc.stream → (sc.SetReadDeadline t w).2.streams i = w.streams i) ∧
      ∃ rd, (sc.SetReadDeadline t w).2.streams sc.stream =
          { w.streams sc.stream with readDeadline := rd } ∧
        ((sc.SetReadDeadline t w).1 = none → rd = some t)) ∧
    ((sc.SetWriteDeadline t w).2.log = w.log ++ [.SetWriteDeadline sc.stream t] ∧
      (sc.SetWriteDeadline t w).2.conns = w.conns ∧
      (∀ i, i ≠ sc.stream → (sc.SetWriteDeadline t w).2.streams i = w.streams i) ∧
      ∃ wd, (sc.SetWriteDeadline t w).2.streams sc.stream =
          { w.streams sc.stream with writeDeadline := wd } ∧
        ((sc.SetWriteDeadline t w).1 = none → wd = some t)) ∧
    (((c.SetDeadline t wD).2.streams c.stream).readDeadline = some t ∧
      ((c.SetDeadline t wD).2.streams c.stream).writeDeadline = some t) ∧
    (((sc.SetDeadline t wS).2.streams sc.stream).readDeadline = some t ∧
      ((sc.SetDeadline t wS).2.streams sc.stream).writeDeadline = some t) :=
  ⟨quicSetReadDeadline_effect c.stream t w, quicSetWriteDeadline_effect c.stream t w,
    quicSetReadDeadline_effect sc.stream t w, quicSetWriteDeadline_effect sc.stream t w,
    setBothDeadlines_ok c.stream t wD hD, setBothDeadlines_ok sc.stream t wS hS⟩

/-- Witness for C13: `SetDeadline(42)` on a stream whose setters succeed. -/
theorem deadline_setters_witness :
    (((⟨0, 0, "a", "b"⟩ : Conn).SetDeadline 42
        (exampleMux.OpenStream .Background StreamTypeControl
          (exampleWorld (exampleConn (.ok (exampleStream [] none)) (.error exampleError) none)
            (.error exampleError))).2).2.streams 0).readDeadline = some 42 ∧
    (((⟨0, 0, "a", "b"⟩ : Conn).SetDeadline 42
        (exampleMux.OpenStream .Background StreamTypeControl
          (exampleWorld (exampleConn (.ok (exampleStream [] none)) (.error exampleError) none)
            (.error exampleError))).2).2.streams 0).writeDeadline = some 42 ∧
    (((⟨0, 0, "a", "b", StreamTypeControl⟩ : StreamConn).SetReadDeadline 42
        (exampleMux.OpenStream .Background StreamTypeControl
          (exampleWorld (exampleConn (.ok (exampleStream [] none)) (.error exampleError) none)
            (.error exampleError))).2).2.log =
      [.OpenStreamSync 0 .Background, .Write 0 [0x01], .SetReadDeadline 0 42]) :=
  have h := deadline_setters ⟨0, 0, "a", "b"⟩ ⟨0, 0, "a", "b", StreamTypeControl⟩ 42
    (exampleMux.OpenStream .Background StreamTypeControl
      (exampleWorld (exampleConn (.ok (exampleStream [] none)) (.error exampleError) none)
        (.error exampleError))).2
    (exampleMux.OpenStream .Background StreamTypeControl
      (exampleWorld (exampleConn (.ok (exampleStream [] none)) (.error exampleError) none)
        (.error exampleError))).2
    rfl
    (exampleMux.OpenStream .Background StreamTypeControl
      (exampleWorld (exampleConn (.ok (exampleStream [] none)) (.error exampleError) none)
        (.error exampleError))).2
    rfl
  ⟨h.2.2.2.2.1.1, h.2.2.2.2.1.2, h.2.2.1.1⟩

/-! ### Concurrent Close -/

/-- The invariant holds when the callers start on an open `MuxConn`. -/
theorem CloseRace.Inv_init (n : Nat) (c : MuxConn) (w : World) (h : c.closed = false) :
    CloseRace.Inv c w (CloseRace.init n c w) := by
  refine ⟨rfl, rfl, rfl, ?_, ?_, Or.inl ⟨h, rfl, rfl, fun j => Or.inl rfl⟩⟩
  · intro j hj
    simp [CloseRace.init, ClosePc.critical] at hj
  · intro j hj
    simp [CloseRace.init] at hj

/-- While the holder of the mutex moves inside the critical section, the
callers inside it remain exactly the holder. -/
theorem mutex_stay (callers : Nat → ClosePc) (mu : Option Nat) (n i : Nat) (pc : ClosePc)
    (h1 : ∀ j, (callers j).critical = true → mu = some j)
    (h2 : ∀ j, mu = some j → j < n ∧ (callers j).critical = true)
    (hmu : mu = some i) (hpc : pc.critical = true) :
    (∀ j, ((Function.update callers i pc) j).critical = true → mu = some j) ∧
    (∀ j, mu = some j → j < n ∧ ((Function.update callers i pc) j).critical = true) := by
  constructor
  · intro j hj
    by_cases hji : j = i
    · rw [hji]; exact hmu
    · rw [Function.update_noteq hji] at hj
      exact h1 j hj
  · intro j hj
    have hji : j = i := by rw [hmu] at hj; exact (Option.some.inj hj).symm
    subst hji
    exact ⟨(h2 j hj).1, by rw [Function.update_same]; exact hpc⟩

/-- When the holder of the mutex unlocks and leaves the critical section, no
caller is inside it. -/
theorem mutex_unlock (callers : Nat → ClosePc) (mu : Option Nat) (n i : Nat) (pc : ClosePc)
    (h1 : ∀ j, (callers j).critical = true → mu = some j)
    (hmu : mu = some i) (hpc : pc.critical = false) :
    (∀ j, ((Function.update callers i pc) j).critical = true → (none : Option Nat) = some j) ∧
    (∀ j, (none : Option Nat) = some j →
      j < n ∧ ((Function.update callers i pc) j).critical = true) := by
  constructor
  · intro j hj
    by_cases hji : j = i
    · rw [hji, Function.update_same, hpc] at hj
      cases hj
    · rw [Function.update_noteq hji] at hj
      have := h1 j hj
      rw [hmu] at this
      exact absurd (Option.some.inj this).symm hji
  · intro j hj
    cases hj

/-- When a caller takes the free mutex, it is the only caller inside the
critical section. -/
theorem mutex_acquire (callers : Nat → ClosePc) (mu : Option Nat) (n i : Nat) (pc : ClosePc)
    (h1 : ∀ j, (callers j).critical = true → mu = some j)
    (hmu : mu = none) (hi : i < n) (hpc : pc.critical = true) :
    (∀ j, ((Function.update callers i pc) j).critical = true → some i = some j) ∧
    (∀ j, some i = some j → j < n ∧ ((Function.update callers i pc) j).critical = true) := by
  constructor
  · intro j hj
    by_cases hji : j = i
    · rw [hji]
    · rw [Function.update_noteq hji] at hj
      have := h1 j hj
      rw [hmu] at this
      cases this
  · intro j hj
    have hji : j = i := (Option.some.inj hj).symm
    subst hji
    exact ⟨hi, by rw [Function.update_same]; exact hpc⟩

/-- Every step of every caller preserves the invariant. -/
theorem CloseRace.Inv_step (c0 : MuxConn) (w0 : World) (s : CloseRace) (i : Nat)
    (h : CloseRace.Inv c0 w0 s) : CloseRace.Inv c0 w0 (s.step i) := by
  obtain ⟨hq, hl, hr, h1, h2, hph⟩ := h
  unfold CloseRace.step
  by_cases hi : i < s.n
  swap
  · simp only [hi, if_false]
    exact ⟨hq, hl, hr, h1, h2, hph⟩
  simp only [hi, if_true]
  have hother : ∀ j, j ≠ i → s.mu = some i → (s.callers j).critical = false := by
    intro j hji hmu
    cases hc : (s.callers j).critical with
    | false => rfl
    | true =>
      have := h1 j hc
      rw [hmu] at this
      exact absurd (Option.some.inj this).symm hji
  cases hpc : s.callers i with
  | lock =>
    simp only
    cases hmu : s.mu with
    | some k => exact ⟨hq, hl, hr, h1, h2, hph⟩
    | none =>
      simp only
      obtain ⟨m1, m2⟩ := mutex_acquire s.callers s.mu s.n i .check h1 hmu hi rfl
      refine ⟨hq, hl, hr, m1, m2, ?_⟩
      rcases hph with ⟨a, b, c, d⟩ | ⟨a, b, c, ⟨k, hk, _⟩, d⟩ | ⟨a, b, c, d⟩
      · refine Or.inl ⟨a, b, c, ?_⟩
        intro j
        by_cases hji : j = i
        · subst hji; simp
        · simpa [Function.update_noteq hji] using d j
      · rw [hmu] at hk
        cases hk
      · refine Or.inr (Or.inr ⟨a, b, c, ?_⟩)
        intro j
        by_cases hji : j = i
        · subst hji; simp
        · simpa [Function.update_noteq hji] using d j
  | check =>
    have hmu : s.mu = some i := h1 i (by rw [hpc]; rfl)
    rcases hph with ⟨a, b, c, d⟩ | ⟨a, b, c, ⟨k, hk, hkt⟩, d⟩ | ⟨a, b, c, d⟩
    · simp only [a, Bool.false_eq_true, if_false]
      obtain ⟨m1, m2⟩ := mutex_stay s.callers s.mu s.n i .setClosed h1 h2 hmu rfl
      refine ⟨hq, hl, hr, m1, m2, Or.inl ⟨a, b, c, ?_⟩⟩
      intro j
      by_cases hji : j = i
      · subst hji; simp
      · simpa [Function.update_noteq hji] using d j
    · rcases d i with hd | hd <;> rw [hpc] at hd <;> cases hd
    · simp only [a, if_true]
      obtain ⟨m1, m2⟩ := mutex_stay s.callers s.mu s.n i .returnRecorded h1 h2 hmu rfl
      refine ⟨hq, hl, hr, m1, m2, Or.inr (Or.inr ⟨a, b, c, ?_⟩)⟩
      intro j
      by_cases hji : j = i
      · subst hji; simp
      · simpa [Function.update_noteq hji] using d j
  | returnRecorded =>
    have hmu : s.mu = some i := h1 i (by rw [hpc]; rfl)
    simp only
    obtain ⟨m1, m2⟩ := mutex_unlock s.callers s.mu s.n i (.done s.c.closeErr) h1 hmu rfl
    rcases hph with ⟨a, b, c, d⟩ | ⟨a, b, c, ⟨k, hk, hkt⟩, d⟩ | ⟨a, b, c, d⟩
    · rcases d i with hd | hd | hd <;> rw [hpc] at hd <;> cases hd
    · rcases d i with hd | hd <;> rw [hpc] at hd <;> cases hd
    · refine ⟨hq, hl, hr, m1, m2, Or.inr (Or.inr ⟨a, b, c, ?_⟩)⟩
      intro j
      by_cases hji : j = i
      · subst hji; simp [b]
      · simpa [Function.update_noteq hji] using d j
  | setClosed =>
    have hmu : s.mu = some i := h1 i (by rw [hpc]; rfl)
    simp only
    obtain ⟨m1, m2⟩ := mutex_stay s.callers s.mu s.n i .teardown h1 h2 hmu rfl
    rcases hph with ⟨a, b, c, d⟩ | ⟨a, b, c, ⟨k, hk, hkt⟩, d⟩ | ⟨a, b, c, d⟩
    · refine ⟨hq, hl, hr, m1, m2, Or.inr (Or.inl ⟨rfl, b, c, ⟨i, hmu, ?_⟩, ?_⟩)⟩
      · simp
      · intro j
        by_cases hji : j = i
        · subst hji; simp
        · dsimp only
          rw [Function.update_noteq hji]
          have hnc := hother j hji hmu
          rcases d j with hd | hd | hd
          · exact Or.inl hd
          · rw [hd] at hnc; cases hnc
          · rw [hd] at hnc; cases hnc
    · rcases d i with hd | hd <;> rw [hpc] at hd <;> cases hd
    · rcases d i with hd | hd | hd | hd | hd <;> rw [hpc] at hd <;> cases hd
  | teardown =>
    have hmu : s.mu = some i := h1 i (by rw [hpc]; rfl)
    simp only
    obtain ⟨m1, m2⟩ := mutex_stay s.callers s.mu s.n i .returnResult h1 h2 hmu rfl
    rcases hph with ⟨a, b, c, d⟩ | ⟨a, b, c, ⟨k, hk, hkt⟩, d⟩ | ⟨a, b, c, d⟩
    · rcases d i with hd | hd | hd <;> rw [hpc] at hd <;> cases hd
    · refine ⟨hq, hl, hr, m1, m2, Or.inr (Or.inr ⟨a, ?_, ?_, ?_⟩)⟩
      · simp [hq, c]
      · simp [hq, c]
      · intro j
        by_cases hji : j = i
        · subst hji; simp
        · dsimp only
          rw [Function.update_noteq hji]
          have hnc := hother j hji hmu
          rcases d j with hd | hd
          · exact Or.inl hd
          · rw [hd] at hnc; cases hnc
    · rcases d i with hd | hd | hd | hd | hd <;> rw [hpc] at hd <;> cases hd
  | returnResult =>
    have hmu : s.mu = some i := h1 i (by rw [hpc]; rfl)
    simp only
    obtain ⟨m1, m2⟩ := mutex_unlock s.callers s.mu s.n i (.done s.c.closeErr) h1 hmu rfl
    rcases hph with ⟨a, b, c, d⟩ | ⟨a, b, c, ⟨k, hk, hkt⟩, d⟩ | ⟨a, b, c, d⟩
    · rcases d i with hd | hd | hd <;> rw [hpc] at hd <;> cases hd
    · rcases d i with hd | hd <;> rw [hpc] at hd <;> cases hd
    · refine ⟨hq, hl, hr, m1, m2, Or.inr (Or.inr ⟨a, b, c, ?_⟩)⟩
      intro j
      by_cases hji : j = i
      · subst hji; simp [b]
      · simpa [Function.update_noteq hji] using d j
  | done e =>
    simp only
    exact ⟨hq, hl, hr, h1, h2, hph⟩

/-- The invariant holds after every interleaving. -/
theorem CloseRace.Inv_run (c0 : MuxConn) (w0 : World) (schedule : List Nat) (s : CloseRace)
    (h : CloseRace.Inv c0 w0 s) : CloseRace.Inv c0 w0 (s.run schedule) := by
  induction schedule generalizing s with
  | nil => exact h
  | cons i rest ih => exact ih (s.step i) (CloseRace.Inv_step c0 w0 s i h)

/-- Changing one entry of a function changes the sum of its first `n` values by
the difference at that entry. -/
theorem sum_range_update (f : Nat → Nat) (n i v : Nat) (hi : i < n) :
    ((List.range n).map (Function.update f i v)).sum + f i =
      ((List.range n).map f).sum + v := by
  induction n with
  | zero => omega
  | succ n ih =>
    rw [List.range_succ, List.map_append, List.map_append, List.sum_append, List.sum_append]
    simp only [List.map_cons, List.map_nil, List.sum_cons, List.sum_nil, Nat.add_zero]
    by_cases hin : i = n
    · subst hin
      have hsame : (List.range i).map (Function.update f i v) = (List.range i).map f := by
        apply List.map_congr_left
        intro j hj
        have : j ≠ i := Nat.ne_of_lt (List.mem_range.mp hj)
        rw [Function.update_noteq this]
      rw [hsame, Function.update_same]
      omega
    · have hlt : i < n := by omega
      have := ih hlt
      rw [Function.update_noteq (Ne.symm hin)]
      omega

/-- The steps left after one entry of the callers changed. -/
theorem CloseRace.stepsLeft_update (s : CloseRace) (i : Nat) (pc : ClosePc) (c : MuxConn)
    (mu : Option Nat) (w : World) (hi : i < s.n) :
    CloseRace.stepsLeft
        { n := s.n, c := c, mu := mu, w := w, callers := Function.update s.callers i pc } +
      (s.callers i).stepsLeft = s.stepsLeft + pc.stepsLeft := by
  have h := sum_range_update (fun j => (s.callers j).stepsLeft) s.n i pc.stepsLeft hi
  have hcomp : (fun j => (Function.update s.callers i pc j).stepsLeft) =
      Function.update (fun j => (s.callers j).stepsLeft) i pc.stepsLeft := by
    funext j
    by_cases hj : j = i
    · subst hj; simp
    · simp [Function.update_noteq hj]
  simp only [CloseRace.stepsLeft, hcomp]
  exact h

/-- A step never changes the number of callers. -/
theorem CloseRace.step_n (s : CloseRace) (i : Nat) : (s.step i).n = s.n := by
  unfold CloseRace.step
  split
  · split
    · split <;> rfl
    · split <;> rfl
    all_goals rfl
  · rfl

/-- A step of a caller that is inside the critical section, or at `Lock` with
the mutex free, uses up at least one of the steps left; every other step
leaves the state as it is. -/
theorem CloseRace.step_stepsLeft (s : CloseRace) (i : Nat) :
    (s.step i).stepsLeft ≤ s.stepsLeft ∧
    (i < s.n → ((s.callers i).critical = true ∨ (s.callers i = .lock ∧ s.mu = none)) →
      (s.step i).stepsLeft < s.stepsLeft) := by
  unfold CloseRace.step
  by_cases hi : i < s.n
  swap
  · simp only [hi, if_false]
    exact ⟨Nat.le_refl _, fun h => h.elim⟩
  simp only [hi, if_true]
  cases hpc : s.callers i with
  | lock =>
    simp only
    cases hmu : s.mu with
    | some k =>
      refine ⟨Nat.le_refl _, fun _ h => ?_⟩
      rcases h with h | ⟨_, h⟩
      · simp [ClosePc.critical] at h
      · cases h
    | none =>
      have h := CloseRace.stepsLeft_update s i .check s.c (some i) s.w hi
      simp only [hpc, ClosePc.stepsLeft] at h
      simp only
      exact ⟨by omega, fun _ _ => by omega⟩
  | check =>
    cases hcl : s.c.closed with
    | true =>
      have h := CloseRace.stepsLeft_update s i .returnRecorded s.c s.mu s.w hi
      simp only [hpc, ClosePc.stepsLeft] at h
      simp only [if_true]
      exact ⟨by omega, fun _ _ => by omega⟩
    | false =>
      have h := CloseRace.stepsLeft_update s i .setClosed s.c s.mu s.w hi
      simp only [hpc, ClosePc.stepsLeft] at h
      simp only [Bool.false_eq_true, if_false]
      exact ⟨by omega, fun _ _ => by omega⟩
  | returnRecorded =>
    have h := CloseRace.stepsLeft_update s i (.done s.c.closeErr) s.c none s.w hi
    simp only [hpc, ClosePc.stepsLeft] at h
    simp only
    exact ⟨by omega, fun _ _ => by omega⟩
  | setClosed =>
    have h := CloseRace.stepsLeft_update s i .teardown { s.c with closed := true } s.mu s.w hi
    simp only [hpc, ClosePc.stepsLeft] at h
    simp only
    exact ⟨by omega, fun _ _ => by omega⟩
  | teardown =>
    have h := CloseRace.stepsLeft_update s i .returnResult
      { s.c with closeErr := (quicCloseWithError s.c.qconn 0 "connection closed" s.w).1 } s.mu
      (quicCloseWithError s.c.qconn 0 "connection closed" s.w).2 hi
    simp only [hpc, ClosePc.stepsLeft] at h
    simp only
    exact ⟨by omega, fun _ _ => by omega⟩
  | returnResult =>
    have h := CloseRace.stepsLeft_update s i (.done s.c.closeErr) s.c none s.w hi
    simp only [hpc, ClosePc.stepsLeft] at h
    simp only
    exact ⟨by omega, fun _ _ => by omega⟩
  | done e =>
    refine ⟨Nat.le_refl _, fun _ h => ?_⟩
    rcases h with h | ⟨h, _⟩
    · simp [ClosePc.critical] at h
    · cases h

/-- Running one schedule after another is running their concatenation. -/
theorem CloseRace.run_append (s : CloseRace) (a b : List Nat) :
    s.run (a ++ b) = (s.run a).run b := by
  simp [CloseRace.run, List.foldl_append]

/-- No interleaving changes the number of callers or adds to the steps left. -/
theorem CloseRace.run_stepsLeft (s : CloseRace) (schedule : List Nat) :
    (s.run schedule).n = s.n ∧ (s.run schedule).stepsLeft ≤ s.stepsLeft := by
  induction schedule generalizing s with
  | nil => exact ⟨rfl, Nat.le_refl _⟩
  | cons i rest ih =>
    have h := ih (s.step i)
    have h1 := CloseRace.step_n s i
    have h2 := (CloseRace.step_stepsLeft s i).1
    exact ⟨by rw [← h1]; exact h.1, Nat.le_trans h.2 h2⟩

/-- At the start each of the `n` callers has five steps left. -/
theorem CloseRace.init_stepsLeft (n : Nat) (c : MuxConn) (w : World) :
    (CloseRace.init n c w).stepsLeft = 5 * n := by
  simp [CloseRace.stepsLeft, CloseRace.init, ClosePc.stepsLeft, Nat.mul_comm]

/-- No deadlock: while some caller has not returned, some caller can move. -/
theorem CloseRace.can_move (c0 : MuxConn) (w0 : World) (s : CloseRace)
    (h : CloseRace.Inv c0 w0 s) (hnd : s.allDone = false) :
    ∃ i, i < s.n ∧ ((s.callers i).critical = true ∨ (s.callers i = .lock ∧ s.mu = none)) := by
  obtain ⟨_, _, _, h1, h2, hph⟩ := h
  cases hmu : s.mu with
  | some k => exact ⟨k, (h2 k hmu).1, Or.inl (h2 k hmu).2⟩
  | none =>
    have hex : ∃ j, j < s.n ∧ (s.callers j).isDone = false := by
      by_contra hcon
      have hall : s.allDone = true := by
        simp only [CloseRace.allDone, List.all_eq_true, List.mem_range]
        intro j hj
        cases hd : (s.callers j).isDone with
        | true => rfl
        | false => exact absurd ⟨j, hj, hd⟩ hcon
      rw [hall] at hnd
      cases hnd
    obtain ⟨j, hj, hd⟩ := hex
    refine ⟨j, hj, Or.inr ⟨?_, rfl⟩⟩
    have hnc : (s.callers j).critical = false := by
      cases hc : (s.callers j).critical with
      | false => rfl
      | true =>
        have := h1 j hc
        rw [hmu] at this
        cases this
    cases hpc : s.callers j with
    | lock => rfl
    | done e => rw [hpc] at hd; simp [ClosePc.isDone] at hd
    | check => rw [hpc] at hnc; cases hnc
    | returnRecorded => rw [hpc] at hnc; cases hnc
    | setClosed => rw [hpc] at hnc; cases hnc
    | teardown => rw [hpc] at hnc; cases hnc
    | returnResult => rw [hpc] at hnc; cases hnc

/-- Every state the callers can reach can be run to the end: some schedule, no
longer than the steps left, lets every caller return. -/
theorem CloseRace.completes (c0 : MuxConn) (w0 : World) (k : Nat) (s : CloseRace)
    (h : CloseRace.Inv c0 w0 s) (hk : s.stepsLeft ≤ k) :
    ∃ ext : List Nat, ext.length ≤ k ∧ (s.run ext).allDone = true := by
  induction k generalizing s with
  | zero =>
    cases hd : s.allDone with
    | true => exact ⟨[], Nat.le_refl _, hd⟩
    | false =>
      obtain ⟨i, hi, hen⟩ := CloseRace.can_move c0 w0 s h hd
      have := (CloseRace.step_stepsLeft s i).2 hi hen
      omega
  | succ k ih =>
    cases hd : s.allDone with
    | true => exact ⟨[], Nat.zero_le _, hd⟩
    | false =>
      obtain ⟨i, hi, hen⟩ := CloseRace.can_move c0 w0 s h hd
      have hlt := (CloseRace.step_stepsLeft s i).2 hi hen
      obtain ⟨ext, hlen, hall⟩ := ih (s.step i) (CloseRace.Inv_step c0 w0 s i h) (by omega)
      exact ⟨i :: ext, by simp; omega, hall⟩

/-- A single caller that is given five steps does what `MuxConn.Close` does:
it returns the same error and leaves the same `MuxConn` and the same world,
with the mutex free again. -/
theorem CloseRace.solo_eq_Close (c : MuxConn) (w : World) :
    ((CloseRace.init 1 c w).run [0, 0, 0, 0, 0]).callers 0 = .done (c.Close w).1 ∧
    ((CloseRace.init 1 c w).run [0, 0, 0, 0, 0]).c = (c.Close w).2.1 ∧
    ((CloseRace.init 1 c w).run [0, 0, 0, 0, 0]).w = (c.Close w).2.2 ∧
    ((CloseRace.init 1 c w).run [0, 0, 0, 0, 0]).mu = none := by
  cases hc : c.closed with
  | true =>
    have hcc : c = { c with closed := true } := by rw [← hc]
    simp [CloseRace.run, CloseRace.init, CloseRace.step, MuxConn.Close, hc]
  | false =>
    simp [CloseRace.run, CloseRace.init, CloseRace.step, MuxConn.Close, hc]

/-- C14: concurrent `Close` calls.  Let `n ≥ 1` callers call `Close` at the
same time on an open `MuxConn`, each executing the lines of `MuxConn.Close`
one at a time, the mutex letting one caller at a time past `Lock`.  For every
interleaving after which all callers have returned, the world's log has
gained exactly one call, `CloseWithError(0, "connection closed")` on the
underlying connection, and every caller has returned the answer of that one
call, which is also the recorded `closeErr`.  During every interleaving, also
an unfinished one, the teardown has run at most once and all callers that
have returned have returned that answer; and every interleaving can be
continued, by at most `5 * n` further steps, to one in which all callers have
returned. -/
theorem MuxConn.Close_concurrent (c : MuxConn) (w : World) (n : Nat) (schedule : List Nat)
    (hopen : c.closed = false) (hn : 0 < n)
    (hdone : ((CloseRace.init n c w).run schedule).allDone = true) :
    ((CloseRace.init n c w).run schedule).w.log =
      w.log ++ [Call.CloseWithError c.qconn 0 "connection closed"] ∧
    (((CloseRace.init n c w).run schedule).w.conns c.qconn).closeCalls =
      (w.conns c.qconn).closeCalls ++ [(0, "connection closed")] ∧
    (∀ j, j < n → ((CloseRace.init n c w).run schedule).callers j =
      .done ((w.conns c.qconn).script.closeScript (w.conns c.qconn).closeCalls.length)) ∧
    ((CloseRace.init n c w).run schedule).c.closed = true ∧
    ((CloseRace.init n c w).run schedule).c.closeErr =
      (w.conns c.qconn).script.closeScript (w.conns c.qconn).closeCalls.length ∧
    (∀ sched2 : List Nat,
      ((CloseRace.init n c w).run sched2).w.log = w.log ∨
      ((CloseRace.init n c w).run sched2).w.log =
        w.log ++ [Call.CloseWithError c.qconn 0 "connection closed"]) ∧
    (∀ (sched2 : List Nat) (j : Nat) (e : error),
      ((CloseRace.init n c w).run sched2).callers j = .done e →
      e = (w.conns c.qconn).script.closeScript (w.conns c.qconn).closeCalls.length) ∧
    (∀ sched2 : List Nat, ∃ ext : List Nat, ext.length ≤ 5 * n ∧
      ((CloseRace.init n c w).run (sched2 ++ ext)).allDone = true) := by
  have hinv := fun sched => CloseRace.Inv_run c w sched _ (CloseRace.Inv_init n c w hopen)
  have heff := quicCloseWithError_effect c.qconn 0 "connection closed" w
  have hres : (quicCloseWithError c.qconn 0 "connection closed" w).1 =
      (w.conns c.qconn).script.closeScript (w.conns c.qconn).closeCalls.length := rfl
  have hnn := (CloseRace.run_stepsLeft (CloseRace.init n c w) schedule).1
  have hdone0 : ∀ j, j < n → (((CloseRace.init n c w).run schedule).callers j).isDone = true := by
    intro j hj
    simp only [CloseRace.allDone, List.all_eq_true, List.mem_range] at hdone
    exact hdone j (by rw [hnn]; exact hj)
  obtain ⟨_, _, _, _, _, hph⟩ := hinv schedule
  refine ⟨?_, ?_, ?_, ?_, ?_, ?_, ?_, ?_⟩
  · rcases hph with ⟨_, _, _, d⟩ | ⟨_, _, _, _, d⟩ | ⟨_, _, hw, _⟩
    · have h0 := hdone0 0 hn
      rcases d 0 with hd | hd | hd <;> rw [hd] at h0 <;> cases h0
    · have h0 := hdone0 0 hn
      rcases d 0 with hd | hd <;> rw [hd] at h0 <;> cases h0
    · rw [hw, heff.1]
  · rcases hph with ⟨_, _, _, d⟩ | ⟨_, _, _, _, d⟩ | ⟨_, _, hw, _⟩
    · have h0 := hdone0 0 hn
      rcases d 0 with hd | hd | hd <;> rw [hd] at h0 <;> cases h0
    · have h0 := hdone0 0 hn
      rcases d 0 with hd | hd <;> rw [hd] at h0 <;> cases h0
    · rw [hw, heff.2.1]
  · intro j hj
    have hj0 := hdone0 j hj
    rcases hph with ⟨_, _, _, d⟩ | ⟨_, _, _, _, d⟩ | ⟨_, _, _, d⟩
    · rcases d j with hd | hd | hd <;> rw [hd] at hj0 <;> cases hj0
    · rcases d j with hd | hd <;> rw [hd] at hj0 <;> cases hj0
    · rcases d j with hd | hd | hd | hd | hd
      · rw [hd] at hj0; cases hj0
      · rw [hd] at hj0; cases hj0
      · rw [hd] at hj0; cases hj0
      · rw [hd] at hj0; cases hj0
      · rw [hd, hres]
  · rcases hph with ⟨_, _, _, d⟩ | ⟨a, _⟩ | ⟨a, _⟩
    · have h0 := hdone0 0 hn
      rcases d 0 with hd | hd | hd <;> rw [hd] at h0 <;> cases h0
    · exact a
    · exact a
  · rcases hph with ⟨_, _, _, d⟩ | ⟨_, _, _, _, d⟩ | ⟨_, b, _⟩
    · have h0 := hdone0 0 hn
      rcases d 0 with hd | hd | hd <;> rw [hd] at h0 <;> cases h0
    · have h0 := hdone0 0 hn
      rcases d 0 with hd | hd <;> rw [hd] at h0 <;> cases h0
    · rw [b, hres]
  · intro sched2
    obtain ⟨_, _, _, _, _, hph2⟩ := hinv sched2
    rcases hph2 with ⟨_, _, hw, _⟩ | ⟨_, _, hw, _⟩ | ⟨_, _, hw, _⟩
    · exact Or.inl (by rw [hw])
    · exact Or.inl (by rw [hw])
    · exact Or.inr (by rw [hw, heff.1])
  · intro sched2 j e he
    obtain ⟨_, _, _, _, _, hph2⟩ := hinv sched2
    rcases hph2 with ⟨_, _, _, d⟩ | ⟨_, _, _, _, d⟩ | ⟨_, _, _, d⟩
    · rcases d j with hd | hd | hd <;> rw [hd] at he <;> cases he
    · rcases d j with hd | hd <;> rw [hd] at he <;> cases he
    · rcases d j with hd | hd | hd | hd | hd
      · rw [hd] at he; cases he
      · rw [hd] at he; cases he
      · rw [hd] at he; cases he
      · rw [hd] at he; cases he
      · rw [hd] at he
        rw [← hres]
        exact (ClosePc.done.inj he).symm
  · intro sched2
    have hle := (CloseRace.run_stepsLeft (CloseRace.init n c w) sched2).2
    rw [CloseRace.init_stepsLeft] at hle
    obtain ⟨ext, hlen, hall⟩ := CloseRace.completes c w (5 * n) _ (hinv sched2) hle
    exact ⟨ext, hlen, by rw [CloseRace.run_append]; exact hall⟩

/-- Witness for C14: three callers, interleaved so that caller 2 gets the
mutex first while callers 0 and 1 keep trying; the connection answers the
first `CloseWithError` with an error and would answer a second one with nil. -/
theorem MuxConn.Close_concurrent_witness :
    ((CloseRace.init 3 exampleMux
        (exampleWorld (exampleConn (.error exampleError) (.error exampleError)
          (some exampleError)) (.error exampleError))).run
      [2, 0, 1, 2, 2, 0, 2, 1, 2, 1, 0, 1, 1, 0, 0, 0]).w.log =
      [Call.CloseWithError 0 0 "connection closed"] ∧
    (∀ j, j < 3 →
      ((CloseRace.init 3 exampleMux
          (exampleWorld (exampleConn (.error exampleError) (.error exampleError)
            (some exampleError)) (.error exampleError))).run
        [2, 0, 1, 2, 2, 0, 2, 1, 2, 1, 0, 1, 1, 0, 0, 0]).callers j =
        .done (some exampleError)) :=
  have h := MuxConn.Close_concurrent exampleMux
    (exampleWorld (exampleConn (.error exampleError) (.error exampleError)
      (some exampleError)) (.error exampleError))
    3 [2, 0, 1, 2, 2, 0, 2, 1, 2, 1, 0, 1, 1, 0, 0, 0] rfl (by decide) rfl
  ⟨h.1, h.2.2.1⟩

/-! ### Mutual authentication -/

/-- When the listener's `Accept` fails, `Listener.Accept` returns the error and
makes no further call. -/
theorem Listener.Accept_accept_failed (l : Listener) (w : World) (err : GoError)
    (hacc : (quicListenerAccept l.ql .Background w).1 = .error err) :
    l.Accept w = ((none, some err), (quicListenerAccept l.ql .Background w).2) := by
  unfold Listener.Accept
  dsimp only
  generalize quicListenerAccept l.ql .Background w = r at *
  obtain ⟨r1, w1⟩ := r
  simp at hacc
  subst hacc
  simp

/-- A failed `quic.DialAddr` creates neither a connection nor a stream. -/
theorem quicDialAddr_failed (ctx : Context) (addr : String) (tlsConfig : TLSConfig)
    (quicConfig : QuicConfig) (w : World) (err : GoError)
    (h : w.dialScript w.dialed = .error err) :
    (quicDialAddr ctx addr tlsConfig quicConfig w).1 = .error err ∧
    (quicDialAddr ctx addr tlsConfig quicConfig w).2.nextConn = w.nextConn ∧
    (quicDialAddr ctx addr tlsConfig quicConfig w).2.nextStream = w.nextStream := by
  simp [quicDialAddr, h, World.record]

/-- When `quic.DialAddr` returns a connection whose first `OpenStreamSync`
succeeds, `Dial` returns a `Conn` on the new connection and the new stream,
after exactly these two library calls. -/
theorem Dial_ok (ctx : Context) (addr : String) (tlsConfig : TLSConfig)
    (quicConfig : QuicConfig) (w : World) (conn : ConnScript) (script : StreamScript)
    (hdial : w.dialScript w.dialed = .ok conn) (hopen : conn.openScript 0 = .ok script) :
    (Dial ctx addr tlsConfig quicConfig w).1 =
      (some ⟨w.nextStream, w.nextConn, conn.localAddr, conn.remoteAddr⟩, none) ∧
    (Dial ctx addr tlsConfig quicConfig w).2.log =
      w.log ++ [.DialAddr ctx addr tlsConfig quicConfig, .OpenStreamSync w.nextConn ctx] := by
  simp [Dial, quicDialAddr, quicOpenStreamSync, hdial, hopen, World.record, World.allocConn,
    World.allocStream, World.setConn, World.setStream, QuicConn.new]

/-- Counterexample for C15: the dialing peer presents a certificate of the
anchor with key 2, which does not chain to the listening side's anchor with
key 1, and trusts the listening side's anchor.  Its own handshake completes,
and `Dial` returns a connection after opening the initial stream. -/
theorem Dial_connects_stranger :
    (exampleConfigs ⟨2⟩).cert.chainsTo (exampleConfigs ⟨0⟩).anchor = false ∧
    (Dial (.other 1) "127.0.0.1:4433" ⟨2⟩ ⟨0⟩
      (noStreamWorld.dialing (dialOutcome (exampleConfigs ⟨2⟩) (exampleConfigs ⟨0⟩)
        (exampleConn (.ok (exampleStream [] none)) (.error exampleError) none)))).1 =
      (some ⟨0, 1, "127.0.0.1:4000", "127.0.0.1:4433"⟩, none) ∧
    (Dial (.other 1) "127.0.0.1:4433" ⟨2⟩ ⟨0⟩
      (noStreamWorld.dialing (dialOutcome (exampleConfigs ⟨2⟩) (exampleConfigs ⟨0⟩)
        (exampleConn (.ok (exampleStream [] none)) (.error exampleError) none)))).2.log =
      [.DialAddr (.other 1) "127.0.0.1:4433" ⟨2⟩ ⟨0⟩, .OpenStreamSync 1 (.other 1)] :=
  ⟨rfl, rfl, rfl⟩

/-- C15, amended: the handshake decides, `Dial` and `Listener.Accept` pass its
outcome on.  The listening side is configured as `l.tlsConfig` says.
(a) A dialing peer that cannot verify the listening side's certificate against
its own trust anchor fails at the handshake: `Dial` returns a nil connection
and that error, its only library call is `DialAddr`, and no connection or
stream comes into being.
(b) A dialing peer that can verify the listening side's certificate completes
its handshake whatever certificate it presents itself: when opening the
initial stream succeeds, `Dial` returns a connection after the calls
`DialAddr` and `OpenStreamSync`.
(c) A dialing peer whose certificate does not chain to the listening side's
trust anchor is not admitted by the listening side: `Listener.Accept` returns
what it would return had that peer not dialled, so no stream is accepted from
it; if nothing else arrives before the listener is closed, `Accept` makes only
the listener's `Accept` call and returns no connection. -/
theorem handshake_passed_on (configs : TLSConfig → TLSSettings) (ctx : Context)
    (addr : String) (quicConfig : QuicConfig) (l : Listener)
    (tlsA : TLSConfig) (wA : World) (connA : ConnScript)
    (hA : (configs l.tlsConfig).cert.chainsTo (configs tlsA).anchor = false)
    (tlsB : TLSConfig) (wB : World) (connB : ConnScript) (script : StreamScript)
    (hB : (configs l.tlsConfig).cert.chainsTo (configs tlsB).anchor = true)
    (hBo : connB.openScript 0 = .ok script)
    (tlsC : TLSConfig) (wL : World) (connC : ConnScript)
    (otherwise : Except GoError ConnScript)
    (hC : (configs tlsC).cert.chainsTo (configs l.tlsConfig).anchor = false) :
    ((Dial ctx addr tlsA quicConfig
        (wA.dialing (dialOutcome (configs tlsA) (configs l.tlsConfig) connA))).1 =
        (none, some tlsUnknownAuthority) ∧
      (Dial ctx addr tlsA quicConfig
        (wA.dialing (dialOutcome (configs tlsA) (configs l.tlsConfig) connA))).2.log =
        wA.log ++ [.DialAddr ctx addr tlsA quicConfig] ∧
      (Dial ctx addr tlsA quicConfig
        (wA.dialing (dialOutcome (configs tlsA) (configs l.tlsConfig) connA))).2.nextConn =
        wA.nextConn ∧
      (Dial ctx addr tlsA quicConfig
        (wA.dialing (dialOutcome (configs tlsA) (configs l.tlsConfig) connA))).2.nextStream =
        wA.nextStream) ∧
    ((Dial ctx addr tlsB quicConfig
        (wB.dialing (dialOutcome (configs tlsB) (configs l.tlsConfig) connB))).1 =
        (some ⟨wB.nextStream, wB.nextConn, connB.localAddr, connB.remoteAddr⟩, none) ∧
      (Dial ctx addr tlsB quicConfig
        (wB.dialing (dialOutcome (configs tlsB) (configs l.tlsConfig) connB))).2.log =
        wB.log ++ [.DialAddr ctx addr tlsB quicConfig, .OpenStreamSync wB.nextConn ctx]) ∧
    (listenerAdmits (configs tlsC) (configs l.tlsConfig) = false ∧
      l.Accept (wL.arriving l.ql
        (acceptOutcome (configs tlsC) (configs l.tlsConfig) connC otherwise)) =
        l.Accept (wL.arriving l.ql otherwise) ∧
      (∀ e, otherwise = .error e →
        (l.Accept (wL.arriving l.ql
          (acceptOutcome (configs tlsC) (configs l.tlsConfig) connC otherwise))).1 =
          (none, some e) ∧
        (l.Accept (wL.arriving l.ql
          (acceptOutcome (configs tlsC) (configs l.tlsConfig) connC otherwise))).2.log =
          wL.log ++ [.ListenerAccept l.ql .Background])) := by
  have hoA : dialOutcome (configs tlsA) (configs l.tlsConfig) connA =
      .error tlsUnknownAuthority := by
    simp [dialOutcome, dialerHandshake, hA]
  have hoB : dialOutcome (configs tlsB) (configs l.tlsConfig) connB = .ok connB := by
    simp [dialOutcome, dialerHandshake, hB]
  have hadm : listenerAdmits (configs tlsC) (configs l.tlsConfig) = false := by
    simp [listenerAdmits, hC]
  have hoC : acceptOutcome (configs tlsC) (configs l.tlsConfig) connC otherwise = otherwise := by
    simp [acceptOutcome, hadm]
  have hsA : (wA.dialing (.error tlsUnknownAuthority)).dialScript
      (wA.dialing (.error tlsUnknownAuthority)).dialed = .error tlsUnknownAuthority := by
    simp [World.dialing]
  have hsB : (wB.dialing (.ok connB)).dialScript (wB.dialing (.ok connB)).dialed =
      .ok connB := by
    simp [World.dialing]
  obtain ⟨d1, d2, d3⟩ := quicDialAddr_failed ctx addr tlsA quicConfig _ _ hsA
  have hdA := Dial_handshake_failed ctx addr tlsA quicConfig _ _ d1
  have hdB := Dial_ok ctx addr tlsB quicConfig _ connB script hsB hBo
  rw [hoA, hoB, hoC]
  refine ⟨⟨?_, ?_, ?_, ?_⟩, ⟨hdB.1, hdB.2⟩, ⟨hadm, rfl, ?_⟩⟩
  · rw [hdA]
  · rw [hdA, quicDialAddr_log]
    rfl
  · rw [hdA]; exact d2
  · rw [hdA]; exact d3
  · intro e he
    subst he
    have hacc : (quicListenerAccept l.ql .Background (wL.arriving l.ql (.error e))).1 =
        .error e := by
      simp [quicListenerAccept, World.arriving, World.setListener, World.record]
    rw [Listener.Accept_accept_failed l _ e hacc, (quicListenerAccept_log _ _ _).1]
    exact ⟨rfl, rfl⟩

/-- Witness for C15, amended: against the listening side of the test, the
test's dialing peer (config 1) fails in `Dial`; the peer that trusts the
listening side but presents a foreign certificate (config 2) gets a
connection from `Dial` and is not admitted by the listening side, whose
`Accept` ends with the listener being closed. -/
theorem handshake_passed_on_witness :
    (Dial (.other 1) "127.0.0.1:4433" ⟨1⟩ ⟨0⟩
      (noStreamWorld.dialing (dialOutcome (exampleConfigs ⟨1⟩) (exampleConfigs ⟨0⟩)
        (exampleConn (.ok (exampleStream [] none)) (.error exampleError) none)))).1 =
      (none, some tlsUnknownAuthority) ∧
    (Dial (.other 1) "127.0.0.1:4433" ⟨1⟩ ⟨0⟩
      (noStreamWorld.dialing (dialOutcome (exampleConfigs ⟨1⟩) (exampleConfigs ⟨0⟩)
        (exampleConn (.ok (exampleStream [] none)) (.error exampleError) none)))).2.log =
      [.DialAddr (.other 1) "127.0.0.1:4433" ⟨1⟩ ⟨0⟩] ∧
    listenerAdmits (exampleConfigs ⟨2⟩) (exampleConfigs ⟨0⟩) = false ∧
    ((⟨0, ⟨0⟩⟩ : Listener).Accept (noStreamWorld.arriving 0
      (acceptOutcome (exampleConfigs ⟨2⟩) (exampleConfigs ⟨0⟩)
        (exampleConn (.error exampleError) (.ok (exampleStream [] none)) none)
        (.error quicErrServerClosed)))).2.log = [.ListenerAccept 0 .Background] :=
  have h := handshake_passed_on exampleConfigs (.other 1) "127.0.0.1:4433" ⟨0⟩ ⟨0, ⟨0⟩⟩
    ⟨1⟩ noStreamWorld (exampleConn (.ok (exampleStream [] none)) (.error exampleError) none) rfl
    ⟨2⟩ noStreamWorld (exampleConn (.ok (exampleStream [] none)) (.error exampleError) none)
    (exampleStream [] none) rfl rfl
    ⟨2⟩ noStreamWorld (exampleConn (.error exampleError) (.ok (exampleStream [] none)) none)
    (.error quicErrServerClosed) rfl
  ⟨h.1.1, h.1.2.1, h.2.2.1, (h.2.2.2.2 quicErrServerClosed rfl).2⟩

end Latis
